import Mathlib

/-!
Shallow embedding of `paderbox/database/database.py` (the dataset
resolution and example-materialization core) together with the parts of
its collaborators that the verified properties need.

Python dictionaries are modelled as association lists (`List (κ × α)`),
which preserves the insertion order that Python dicts guarantee.  Mutable
record objects shared between several dictionaries are modelled with an
explicit store mapping addresses to record values.  Exceptions are
modelled with `Except`; the error constructors carry the payloads the
Python exceptions carry.
-/

set_option autoImplicit false

universe u v

/-! ### Association lists with Python-dict semantics -/

/-- Lookup in an association list; returns the first binding, matching the
unique binding of a Python dict. -/
def alookup {κ : Type u} {α : Type v} [DecidableEq κ] : List (κ × α) → κ → Option α
  | [], _ => none
  | (k, v) :: rest, key => if k = key then some v else alookup rest key

/-- Assignment `d[key] = v` with Python-dict semantics: an existing binding
is updated in place (keeping its position), a new binding is appended. -/
def aset {κ : Type u} {α : Type v} [DecidableEq κ] : List (κ × α) → κ → α → List (κ × α)
  | [], key, v => [(key, v)]
  | (k, w) :: rest, key, v =>
    if k = key then (key, v) :: rest else (k, w) :: aset rest key v

/-- Python `{**a, **b}`: the keys of `a` in order (with values overridden
by `b` where present, kept otherwise), followed by the keys of `b` that
are not in `a`. -/
def dictMerge {κ : Type u} {α : Type v} [DecidableEq κ] (a b : List (κ × α)) :
    List (κ × α) :=
  (a.map (fun p => (p.1, (alookup b p.1).getD p.2)))
    ++ b.filter (fun q => (alookup a q.1).isNone)

@[simp] theorem alookup_nil {κ : Type u} {α : Type v} [DecidableEq κ] (key : κ) :
    alookup ([] : List (κ × α)) key = none := rfl

@[simp] theorem alookup_cons {κ : Type u} {α : Type v} [DecidableEq κ]
    (k : κ) (v : α) (rest : List (κ × α)) (key : κ) :
    alookup ((k, v) :: rest) key = if k = key then some v else alookup rest key := rfl

@[simp] theorem aset_nil {κ : Type u} {α : Type v} [DecidableEq κ] (key : κ) (v : α) :
    aset ([] : List (κ × α)) key v = [(key, v)] := rfl

@[simp] theorem aset_cons {κ : Type u} {α : Type v} [DecidableEq κ]
    (k : κ) (w : α) (rest : List (κ × α)) (key : κ) (v : α) :
    aset ((k, w) :: rest) key v =
      if k = key then (key, v) :: rest else (k, w) :: aset rest key v := rfl

theorem alookup_aset_self {κ : Type u} {α : Type v} [DecidableEq κ]
    (l : List (κ × α)) (key : κ) (v : α) : alookup (aset l key v) key = some v := by
  induction l with
  | nil => simp
  | cons p rest ih =>
    obtain ⟨k, w⟩ := p
    by_cases h : k = key <;> simp [h, ih]

theorem alookup_aset_ne {κ : Type u} {α : Type v} [DecidableEq κ]
    (l : List (κ × α)) (key key' : κ) (v : α) (h : key ≠ key') :
    alookup (aset l key v) key' = alookup l key' := by
  induction l with
  | nil => simp [h]
  | cons p rest ih =>
    obtain ⟨k, w⟩ := p
    by_cases hk : k = key
    · subst hk; simp [h]
    · simp only [aset_cons, if_neg hk]
      by_cases hk' : k = key' <;> simp [hk', ih]

/-- Writing back the value that is already bound leaves the dict unchanged. -/
theorem aset_eq_of_alookup {κ : Type u} {α : Type v} [DecidableEq κ]
    (l : List (κ × α)) (key : κ) (v : α) (h : alookup l key = some v) :
    aset l key v = l := by
  induction l with
  | nil => simp at h
  | cons p rest ih =>
    obtain ⟨k, w⟩ := p
    by_cases hk : k = key
    · subst hk
      rw [alookup_cons, if_pos rfl] at h
      injection h with h
      subst h
      simp
    · simp only [alookup_cons, if_neg hk] at h
      simp [hk, ih h]

theorem alookup_eq_none_iff {κ : Type u} {α : Type v} [DecidableEq κ]
    (l : List (κ × α)) (key : κ) :
    alookup l key = none ↔ key ∉ l.map Prod.fst := by
  induction l with
  | nil => simp
  | cons p rest ih =>
    obtain ⟨k, w⟩ := p
    by_cases hk : k = key
    · subst hk; simp
    · simp only [alookup_cons, if_neg hk, List.map_cons, List.mem_cons, not_or, ih]
      constructor
      · intro h; exact ⟨fun he => hk he.symm, h⟩
      · intro h; exact h.2

theorem alookup_isSome_iff {κ : Type u} {α : Type v} [DecidableEq κ]
    (l : List (κ × α)) (key : κ) :
    (alookup l key).isSome ↔ key ∈ l.map Prod.fst := by
  rw [← Decidable.not_not (p := key ∈ l.map Prod.fst), ← alookup_eq_none_iff]
  cases alookup l key <;> simp

/-- The keys of `aset l key v`: unchanged when `key` was bound, otherwise
`key` is appended. -/
theorem map_fst_aset {κ : Type u} {α : Type v} [DecidableEq κ]
    (l : List (κ × α)) (key : κ) (v : α) :
    (aset l key v).map Prod.fst =
      if key ∈ l.map Prod.fst then l.map Prod.fst else l.map Prod.fst ++ [key] := by
  induction l with
  | nil => simp
  | cons p rest ih =>
    obtain ⟨k, w⟩ := p
    by_cases hk : k = key
    · subst hk; simp
    · simp only [aset_cons, if_neg hk, List.map_cons]
      rw [ih]
      by_cases hmem : key ∈ rest.map Prod.fst <;> simp [hmem, hk, Ne.symm hk]

/-- `aset` preserves distinctness of keys. -/
theorem nodup_keys_aset {κ : Type u} {α : Type v} [DecidableEq κ]
    (l : List (κ × α)) (key : κ) (v : α) (h : (l.map Prod.fst).Nodup) :
    ((aset l key v).map Prod.fst).Nodup := by
  rw [map_fst_aset]
  by_cases hmem : key ∈ l.map Prod.fst
  · simpa [hmem]
  · simpa [hmem, List.nodup_append] using h

/-! ### Values and example records

The values stored in an example record (strings, numbers and the nested
audio-path mapping used by the Kaldi adapter). -/

inductive Val : Type where
  | str : String → Val
  | num : Nat → Val
  | vmap : List (String × Val) → Val

/-- An example record: a Python dict from semantic keys to values,
in insertion order. -/
abbrev Record := List (String × Val)

/-- `record[k]` as an optional lookup. -/
def rget (r : Record) (k : String) : Option Val := alookup r k

/-- In-place assignment `record[k] = v`. -/
def rset (r : Record) (k : String) (v : Val) : Record := aset r k v

/-! The key constants come from `paderbox/database/keys.py`, which is not
part of the analysed sources; the string values are the conventional
lower-case key names and no verified property depends on them. -/

def EXAMPLE_ID : String := "example_id"

def DATASET_NAME : String := "dataset_name"

def NUM_SAMPLES : String := "num_samples"

def AUDIO_PATH : String := "audio_path"

def OBSERVATION : String := "observation"

def SPEAKER_ID : String := "speaker_id"

def GENDER : String := "gender"

def KALDI_TRANSCRIPTION : String := "kaldi_transcription"

/-! ### The database document and its store of shared record objects

Python record dicts are mutable objects that can be shared between
several dataset mappings (an alias shares its records with the
underlying datasets).  A `Store` maps object addresses to record values;
the datasets section maps example ids to addresses. -/

abbrev Store := List (Nat × Record)

/-- Dereference an address (addresses used by a database document are
always allocated, so the default is irrelevant). -/
def storeGet (s : Store) (a : Nat) : Record := (alookup s a).getD []

/-- The in-memory `database_dict`: a `datasets` section and an optional
`alias` section (absent section = empty list, matching
`database_dict.get('alias', [])`). -/
structure DatabaseDict : Type where
  datasets : List (String × List (String × Nat))
  aliasMap : List (String × List String)

/-- `Database.dataset_names`: the keys of the datasets section followed by
the keys of the alias section. -/
def datasetNames (db : DatabaseDict) : List String :=
  db.datasets.map Prod.fst ++ db.aliasMap.map Prod.fst

/-- The exceptions raised by the resolution core.  The Python classes are
built-ins; the spec refers to them by taxonomy names, noted per case. -/
inductive DBError : Type where
  /-- `AssertionError` from the alias intersection check
  (spec taxonomy: `ConflictError`). -/
  | conflictError : DBError
  /-- Raw `KeyError` from a missing dict key during resolution; caught by
  `get_dataset` and converted to `nameNotFound`. -/
  | keyNotFound : DBError
  /-- `KeyError(name, close_matches, self)` re-raised by `get_dataset`
  (spec taxonomy: `NameNotFoundError`): the queried name, the top-5
  fuzzy suggestions, and via `self` the valid dataset names. -/
  | nameNotFound : String → List String → List String → DBError
  /-- `RuntimeError` for an empty resolved mapping
  (spec taxonomy: `EmptyDatasetError`). -/
  | emptyDataset : String → DBError
  /-- `TypeError` raised when `names is None`; its message lists the valid
  dataset names. -/
  | typeError : List String → DBError
  deriving DecidableEq

/-- The intersection check `set(examples.keys()) & set(examples_new.keys())`
is non-empty. -/
def sharesKey (a b : List (String × Nat)) : Bool :=
  a.any (fun p => b.any (fun q => q.1 == p.1))

/-- The alias loop of `Database._get_dataset_from_database_dict`: iterate
the underlying dataset names in declared order; before each merge, assert
that the accumulated keys and the new keys are disjoint. -/
def mergeAliasDatasets (db : DatabaseDict) :
    List String → List (String × Nat) → Except DBError (List (String × Nat))
  | [], acc => .ok acc
  | n :: rest, acc =>
    match alookup db.datasets n with
    | none => .error .keyNotFound
    | some exNew =>
      if sharesKey acc exNew then .error .conflictError
      else mergeAliasDatasets db rest (dictMerge acc exNew)

/-- `Database._get_dataset_from_database_dict`: alias names expand to the
merged mapping of their underlying datasets, direct names return the
stored mapping by reference. -/
def getDatasetFromDatabaseDict (db : DatabaseDict) (name : String) :
    Except DBError (List (String × Nat)) :=
  match alookup db.aliasMap name with
  | some underlying => mergeAliasDatasets db underlying []
  | none =>
    match alookup db.datasets name with
    | some ex => .ok ex
    | none => .error .keyNotFound

/-! ### `difflib.get_close_matches` (the fuzzy suggestions)

`get_dataset` calls `difflib.get_close_matches(name, dataset_names, n=5,
cutoff=0)`.  With `cutoff=0` every possibility passes the three ratio
filters, so the result is `heapq.nlargest(5, ...)` over the
`(ratio, possibility)` pairs.  The ratio is `2*M/T` where `M` is the total
size of the matching blocks of `SequenceMatcher` and `T` the sum of the
lengths; it is represented below by the exact pair `(2*M, T)` and compared
by cross-multiplication, which for these short strings orders exactly as
the floating-point ratios do. -/

/-- The match indices `j` in `[blo, bhi)` with `b[j] = c`, ascending:
difflib iterates `b2j[a[i]]` (ascending) and applies the

`j < blo` skip and `j >= bhi` break. -/
def charIndices (b : List Char) (c : Char) (blo bhi : Nat) : List Nat :=
  (List.range b.length).filter (fun j => decide (blo ≤ j ∧ j < bhi ∧ b.get? j = some c))

/-- One row (one value of `i`) of the `find_longest_match` dynamic program:
`j2len` maps `j` to the length of the match ending at the previous row
(absent entries read 0, like `j2len.get(j-1, 0)`), the accumulator carries
the fresh `newj2len` and the running `(besti, bestj, bestsize)`. -/
def flmRow (j2len : Nat → Nat) (i : Nat) (best : Nat × Nat × Nat) (js : List Nat) :
    (Nat → Nat) × (Nat × Nat × Nat) :=
  js.foldl
    (fun (st : (Nat → Nat) × (Nat × Nat × Nat)) j =>
      let k := (if j = 0 then 0 else j2len (j - 1)) + 1
      ((fun m => if m = j then k else st.1 m),
       if st.2.2.2 < k then (i + 1 - k, j + 1 - k, k) else st.2))
    (((fun _ => 0) : Nat → Nat), best)

/-- `SequenceMatcher.find_longest_match` on the window
`a[alo:ahi]` x `b[blo:bhi]`, for junk-free sequences (dataset names are
far below the autojunk threshold and no junk function is passed; the
trailing extension loops of the Python code never fire without junk,
because the dynamic program already records maximal blocks). -/
def findLongestMatch (a b : List Char) (alo ahi blo bhi : Nat) : Nat × Nat × Nat :=
  (((List.range ahi).drop alo).foldl
    (fun (st : (Nat → Nat) × (Nat × Nat × Nat)) i =>
      match a.get? i with
      | none => ((fun _ => 0), st.2)
      | some c => flmRow st.1 i st.2 (charIndices b c blo bhi))
    (((fun _ => 0) : Nat → Nat), (alo, blo, 0))).2

/-- Total size of the matching blocks of `get_matching_blocks`: the
recursive longest-block decomposition (difflib's queue), summing the block
sizes.  `fuel` bounds the recursion depth; any value above the window
size is enough, and the adjacent-block merge step of difflib does not
change the total. -/
def matchTotalFuel (a b : List Char) : Nat → Nat → Nat → Nat → Nat → Nat
  | 0, _, _, _, _ => 0
  | fuel + 1, alo, ahi, blo, bhi =>
    match findLongestMatch a b alo ahi blo bhi with
    | (bi, bj, k) =>
      if k = 0 then 0
      else matchTotalFuel a b fuel alo bi blo bj + k +
           matchTotalFuel a b fuel (bi + k) ahi (bj + k) bhi

/-- The rating `(2*M, T)` of possibility `x` against the queried `word`
(`SequenceMatcher(a=x, b=word).ratio() = 2*M/T`). -/
def ratioPair (x word : String) : Nat × Nat :=
  (2 * matchTotalFuel x.toList word.toList
        (x.toList.length + word.toList.length + 1)
        0 x.toList.length 0 word.toList.length,
   x.toList.length + word.toList.length)

/-- Python string comparison: lexicographic by Unicode code point. -/
def strLtB : List Char → List Char → Bool
  | [], [] => false
  | [], _ :: _ => true
  | _ :: _, [] => false
  | c :: cs, d :: ds => if c = d then strLtB cs ds else decide (c.toNat < d.toNat)

/-- Python tuple comparison of `(ratio, word)` pairs, ratios compared by
cross-multiplication of the exact fractions. -/
def ratedLt (p q : (Nat × Nat) × String) : Bool :=
  decide (p.1.1 * q.1.2 < q.1.1 * p.1.2) ||
    (decide (p.1.1 * q.1.2 = q.1.1 * p.1.2) && strLtB p.2.toList q.2.toList)

/-- Insert into a descending-sorted list, before the first strictly
smaller element (the stable placement of `sorted(..., reverse=True)`). -/
def insertDesc (x : (Nat × Nat) × String) :
    List ((Nat × Nat) × String) → List ((Nat × Nat) × String)
  | [] => [x]
  | y :: ys => if ratedLt x y then y :: insertDesc x ys else x :: y :: ys

/-- Stable descending sort (the documented semantics of
`heapq.nlargest(n, it)` is `sorted(it, reverse=True)[:n]`). -/
def sortDesc (l : List ((Nat × Nat) × String)) : List ((Nat × Nat) × String) :=
  l.foldr insertDesc []

/-- `difflib.get_close_matches(word, possibilities, n, cutoff=0)`. -/
def getCloseMatches (word : String) (possibilities : List String) (n : Nat) :
    List String :=
  ((sortDesc (possibilities.map (fun x => (ratioPair x word, x)))).take n).map Prod.snd

theorem insertDesc_perm (x : (Nat × Nat) × String) (l : List ((Nat × Nat) × String)) :
    List.Perm (insertDesc x l) (x :: l) := by
  induction l with
  | nil => simp [insertDesc]
  | cons y ys ih =>
    by_cases h : ratedLt x y
    · simpa [insertDesc, h] using (ih.cons y).trans (List.Perm.swap x y ys)
    · simp [insertDesc, h]

theorem sortDesc_perm (l : List ((Nat × Nat) × String)) :
    List.Perm (sortDesc l) l := by
  induction l with
  | nil => simp [sortDesc]
  | cons x xs ih =>
    exact (insertDesc_perm x (sortDesc xs)).trans (ih.cons x)

/-- With `cutoff=0`, when there are at most `n` possibilities,
`get_close_matches` returns all of them (in rating order), so every
possibility is among the suggestions. -/
theorem mem_getCloseMatches_of_length_le (word : String) (possibilities : List String)
    (n : Nat) (hlen : possibilities.length ≤ n) (y : String) (hy : y ∈ possibilities) :
    y ∈ getCloseMatches word possibilities n := by
  unfold getCloseMatches
  have hperm := sortDesc_perm (possibilities.map (fun x => (ratioPair x word, x)))
  have hlen2 : (sortDesc (possibilities.map (fun x => (ratioPair x word, x)))).length ≤ n := by
    rw [hperm.length_eq, List.length_map]
    exact hlen
  rw [List.take_of_length_le hlen2]
  have hmem : (ratioPair y word, y) ∈
      possibilities.map (fun x => (ratioPair x word, x)) :=
    List.mem_map.mpr ⟨y, hy, rfl⟩
  exact List.mem_map.mpr ⟨(ratioPair y word, y), hperm.mem_iff.mpr hmem, rfl⟩

/-- Levenshtein edit distance between character lists, fuel-based so that
it evaluates by kernel reduction; used to state "single-character typo". -/
def editDistFuel : Nat → List Char → List Char → Nat
  | 0, xs, ys => xs.length + ys.length
  | _ + 1, [], ys => ys.length
  | _ + 1, x :: xs, [] => (x :: xs).length
  | fuel + 1, x :: xs, y :: ys =>
    if x = y then editDistFuel fuel xs ys
    else 1 + min (editDistFuel fuel xs (y :: ys))
             (min (editDistFuel fuel (x :: xs) ys) (editDistFuel fuel xs ys))

def editDist (a b : List Char) : Nat := editDistFuel (a.length + b.length + 1) a b

/-! ### `Database.get_dataset`: the cache, normalization and wrapping -/

/-- The body of the normalization loop for one example:
`examples[example_id][EXAMPLE_ID] = example_id` followed by
`examples[example_id][DATASET_NAME] = name`, in place on the record. -/
def normalizeExample (exampleId datasetName : String) (r : Record) : Record :=
  rset (rset r EXAMPLE_ID (Val.str exampleId)) DATASET_NAME (Val.str datasetName)

/-- The normalization loop over a resolved mapping, mutating the shared
record objects in the store. -/
def normalizeInStore (name : String) (examples : List (String × Nat))
    (store : Store) : Store :=
  examples.foldl
    (fun st p => aset st p.2 (normalizeExample p.1 name (storeGet st p.2)))
    store

/-- The mutable process state of a `Database` object: the record store,
the `_dataset_weak_ref_dict` (name to wrapper identity), and the built
wrapper objects.  Wrapper identities are allocated from `nextId`, so
identity equality of wrappers is equality of their ids.

Modelled from the spec: `lazy_dataset.from_dict` (this repository's
`lazy_dataset` package is not among the analysed sources) wraps the
resolved mapping into an immutable, order-preserving lazy sequence over
the mapping's values; the wrapper entry stores that snapshot. -/
structure DBState : Type where
  store : Store
  cache : List (String × Nat)
  wrappers : List (Nat × List Record)
  nextId : Nat

/-- A fresh `Database` object over an initial record store: empty weak-ref
dict, no wrappers built yet. -/
def initState (store : Store) : DBState :=
  { store := store, cache := [], wrappers := [], nextId := 0 }

/-- Result of fetching one name: the returned wrapper identity (or the
raised error), the state after the call, and the number of times the
per-name build (resolution plus wrapping) ran, as instrumentation. -/
structure FetchResult : Type where
  res : Except DBError Nat
  st : DBState
  builds : Nat

/-- One iteration of the loop of `Database.get_dataset` for a single
name: weak-ref cache lookup first; on a miss, resolve (converting the
`KeyError` into the suggestion-carrying name-not-found error), reject an
empty mapping, normalize the records in place, wrap, and cache. -/
def getDatasetSingle (db : DatabaseDict) (name : String) (st : DBState) :
    FetchResult :=
  match alookup st.cache name with
  | some wid => { res := .ok wid, st := st, builds := 0 }
  | none =>
    match getDatasetFromDatabaseDict db name with
    | .error .keyNotFound =>
      { res := .error (.nameNotFound name
          (getCloseMatches name (datasetNames db) 5) (datasetNames db)),
        st := st, builds := 1 }
    | .error e => { res := .error e, st := st, builds := 1 }
    | .ok examples =>
      if examples.length = 0 then
        { res := .error (.emptyDataset name), st := st, builds := 1 }
      else
        let store2 := normalizeInStore name examples st.store
        { res := .ok st.nextId,
          st := { store := store2,
                  cache := aset st.cache name st.nextId,
                  wrappers := aset st.wrappers st.nextId
                    (examples.map (fun p => storeGet store2 p.2)),
                  nextId := st.nextId + 1 },
          builds := 1 }

/-- The loop of `Database.get_dataset` over a list of names; an error
raised mid-loop propagates, keeping the state changes already made. -/
def getDatasetList (db : DatabaseDict) :
    List String → DBState → (Except DBError (List Nat)) × DBState
  | [], st => (.ok [], st)
  | n :: rest, st =>
    let r := getDatasetSingle db n st
    match r.res with
    | .error e => (.error e, r.st)
    | .ok wid =>
      match getDatasetList db rest r.st with
      | (.ok wids, st2) => (.ok (wid :: wids), st2)
      | (.error e, st2) => (.error e, st2)

/-- `Database.get_dataset(names)`: `names is None` raises the `TypeError`
whose message lists the valid dataset names; otherwise the names are
processed in order (`to_list` turns a single string into a one-element
list, so a list input covers both call shapes). -/
def getDataset (db : DatabaseDict) (names : Option (List String)) (st : DBState) :
    (Except DBError (List Nat)) × DBState :=
  match names with
  | none => (.error (.typeError (datasetNames db)), st)
  | some ns => getDatasetList db ns st

/-- Garbage collection over the weak-ref dict: `live` is the set of
wrapper identities that still have a strong reference; the
`WeakValueDictionary` silently drops every entry whose wrapper is dead.
The wrapper objects themselves are dropped by the host; their entries in
`wrappers` are kept here only as the record of their (now unreachable)
content, which no operation consults again. -/
def gcCollect (live : List Nat) (st : DBState) : DBState :=
  { st with cache := st.cache.filter (fun p => p.2 ∈ live) }

/-- The value sequence held by a wrapper. -/
def wrapperElems (st : DBState) (wid : Nat) : List Record :=
  (alookup st.wrappers wid).getD []

/-- Modelled from the spec: `lazy_dataset.concatenate(*datasets)` (not
among the analysed sources) yields all elements of the first dataset in
order, then the second, and so on. -/
def concatElems (st : DBState) (wids : List Nat) : List Record :=
  (wids.map (wrapperElems st)).flatten

/-- Modelled from the spec: a restartable iterator over a lazy sequence;
each `mkIter` restarts from the beginning. -/
structure SeqIter : Type where
  remaining : List Record

def mkIter (elems : List Record) : SeqIter := ⟨elems⟩

def iterNext : SeqIter → Option (Record × SeqIter)
  | ⟨[]⟩ => none
  | ⟨r :: rest⟩ => some (r, ⟨rest⟩)

def runIterAux : Nat → SeqIter → List Record
  | 0, _ => []
  | n + 1, it =>
    match iterNext it with
    | none => []
    | some (r, it2) => r :: runIterAux n it2

/-- Exhaust an iterator, collecting the yielded elements. -/
def runIter (it : SeqIter) : List Record := runIterAux it.remaining.length it

theorem runIter_mkIter (elems : List Record) : runIter (mkIter elems) = elems := by
  suffices h : ∀ n l, l.length ≤ n → runIterAux n (mkIter l) = l by
    exact h elems.length elems le_rfl
  intro n
  induction n with
  | zero => intro l hl; simp [List.length_eq_zero.mp (Nat.le_zero.mp hl), runIterAux, mkIter]
  | succ n ih =>
    intro l hl
    cases l with
    | nil => simp [runIterAux, mkIter, iterNext]
    | cons r rest =>
      simp only [runIterAux, mkIter, iterNext]
      rw [← mkIter]
      exact congrArg (r :: ·) (ih rest (Nat.le_of_succ_le_succ (by simpa using hl)))

/-- The keys of the resolved mapping of a name, in iteration order (used
to state order-preservation of the produced sequences). -/
def resolvedKeys (db : DatabaseDict) (name : String) : List String :=
  match getDatasetFromDatabaseDict db name with
  | .ok ex => ex.map Prod.fst
  | .error _ => []

/-! ### Claim C1: alias merge order, conflicts, and size -/

/-- The mapping stored for a direct dataset name (defaulting is irrelevant
where the name is known to be present). -/
def dsOf (db : DatabaseDict) (n : String) : List (String × Nat) :=
  (alookup db.datasets n).getD []

/-- No example identifier occurs in both mappings. -/
def keysDisjoint (a b : List (String × Nat)) : Prop :=
  ∀ k ∈ a.map Prod.fst, k ∉ b.map Prod.fst

instance keysDisjointDecidable (a b : List (String × Nat)) :
    Decidable (keysDisjoint a b) :=
  List.decidableBAll _ _

/-- Mapping a function that fixes every element of a list is the
identity. -/
theorem list_map_id_of {α : Type u} (l : List α) (f : α → α)
    (h : ∀ x ∈ l, f x = x) : l.map f = l := by
  induction l with
  | nil => rfl
  | cons x xs ih =>
    simp only [List.map_cons]
    rw [h x (List.mem_cons_self x xs),
      ih (fun y hy => h y (List.mem_cons_of_mem x hy))]

@[simp] theorem mergeAlias_nil (db : DatabaseDict) (acc : List (String × Nat)) :
    mergeAliasDatasets db [] acc = .ok acc := rfl

theorem mergeAlias_cons_none (db : DatabaseDict) (n : String) (rest : List String)
    (acc : List (String × Nat)) (hex : alookup db.datasets n = none) :
    mergeAliasDatasets db (n :: rest) acc = .error .keyNotFound := by
  simp only [mergeAliasDatasets, hex]

theorem mergeAlias_cons_some (db : DatabaseDict) (n : String) (rest : List String)
    (acc exNew : List (String × Nat)) (hex : alookup db.datasets n = some exNew) :
    mergeAliasDatasets db (n :: rest) acc =
      if sharesKey acc exNew then .error .conflictError
      else mergeAliasDatasets db rest (dictMerge acc exNew) := by
  simp only [mergeAliasDatasets, hex]

theorem sharesKey_eq_false_iff (a b : List (String × Nat)) :
    sharesKey a b = false ↔ keysDisjoint a b := by
  constructor
  · intro h k hka hkb
    rw [List.mem_map] at hka hkb
    obtain ⟨p, hp, hpk⟩ := hka
    obtain ⟨q, hq, hqk⟩ := hkb
    have htrue : sharesKey a b = true := by
      unfold sharesKey
      rw [List.any_eq_true]
      refine ⟨p, hp, ?_⟩
      rw [List.any_eq_true]
      exact ⟨q, hq, by simp [hqk, hpk]⟩
    rw [h] at htrue
    cases htrue
  · intro h
    by_contra hne
    have htrue : sharesKey a b = true := by
      cases hb : sharesKey a b
      · exact absurd hb hne
      · rfl
    unfold sharesKey at htrue
    rw [List.any_eq_true] at htrue
    obtain ⟨p, hp, hpany⟩ := htrue
    rw [List.any_eq_true] at hpany
    obtain ⟨q, hq, hqeq⟩ := hpany
    have hqp : q.1 = p.1 := by simpa using hqeq
    exact h p.1 (List.mem_map.mpr ⟨p, hp, rfl⟩) (List.mem_map.mpr ⟨q, hq, hqp⟩)

/-- For disjoint keys, `{**a, **b}` is the concatenation: the keys of `a`
in order, then the keys of `b`. -/
theorem dictMerge_eq_append (a b : List (String × Nat)) (h : keysDisjoint a b) :
    dictMerge a b = a ++ b := by
  unfold dictMerge
  have h1 : ∀ p ∈ a, (p.1, (alookup b p.1).getD p.2) = p := by
    intro p hp
    have hnone : alookup b p.1 = none :=
      (alookup_eq_none_iff b p.1).mpr (h p.1 (List.mem_map.mpr ⟨p, hp, rfl⟩))
    rw [hnone]
    rfl
  have h2 : ∀ q ∈ b, (alookup a q.1).isNone = true := by
    intro q hq
    rw [Option.isNone_iff_eq_none, alookup_eq_none_iff]
    intro hmem
    exact h q.1 hmem (List.mem_map.mpr ⟨q, hq, rfl⟩)
  rw [list_map_id_of a _ h1, List.filter_eq_self.mpr h2]

theorem mem_keys_dictMerge_left (a b : List (String × Nat)) (k : String)
    (h : k ∈ a.map Prod.fst) : k ∈ (dictMerge a b).map Prod.fst := by
  unfold dictMerge
  rw [List.map_append, List.mem_append]
  left
  rw [List.map_map]
  exact h

theorem mem_keys_dictMerge_right (a b : List (String × Nat)) (k : String)
    (h : k ∈ b.map Prod.fst) : k ∈ (dictMerge a b).map Prod.fst := by
  by_cases hmem : k ∈ a.map Prod.fst
  · exact mem_keys_dictMerge_left a b k hmem
  · unfold dictMerge
    rw [List.map_append, List.mem_append]
    right
    rw [List.mem_map] at h
    obtain ⟨q, hq, hqk⟩ := h
    refine List.mem_map.mpr ⟨q, List.mem_filter.mpr ⟨hq, ?_⟩, hqk⟩
    rw [Option.isNone_iff_eq_none, alookup_eq_none_iff, hqk]
    exact hmem

theorem keysDisjoint_append (a b c : List (String × Nat)) :
    keysDisjoint (a ++ b) c ↔ keysDisjoint a c ∧ keysDisjoint b c := by
  unfold keysDisjoint
  rw [List.map_append]
  constructor
  · intro h
    exact ⟨fun k hk => h k (List.mem_append.mpr (Or.inl hk)),
           fun k hk => h k (List.mem_append.mpr (Or.inr hk))⟩
  · intro h k hk
    rcases List.mem_append.mp hk with h1 | h2
    · exact h.1 k h1
    · exact h.2 k h2

theorem keysDisjoint_of_dictMerge (a b c : List (String × Nat))
    (h : keysDisjoint (dictMerge a b) c) : keysDisjoint a c ∧ keysDisjoint b c :=
  ⟨fun k hk => h k (mem_keys_dictMerge_left a b k hk),
   fun k hk => h k (mem_keys_dictMerge_right a b k hk)⟩

/-- The alias loop succeeds on pairwise-disjoint underlying datasets and
produces the mappings appended in declared order. -/
theorem mergeAlias_ok_of_disjoint (db : DatabaseDict) (us : List String) :
    ∀ acc : List (String × Nat),
    (∀ n ∈ us, (alookup db.datasets n).isSome) →
    us.Pairwise (fun m n => keysDisjoint (dsOf db m) (dsOf db n)) →
    (∀ n ∈ us, keysDisjoint acc (dsOf db n)) →
    mergeAliasDatasets db us acc = .ok (acc ++ (us.map (dsOf db)).flatten) := by
  induction us with
  | nil => intro acc _ _ _; simp
  | cons n rest ih =>
    intro acc hpres hpair hacc
    obtain ⟨exNew, hex⟩ :=
      Option.isSome_iff_exists.mp (hpres n (List.mem_cons_self n rest))
    have hdsOf : dsOf db n = exNew := by unfold dsOf; rw [hex]; rfl
    have hdisj : keysDisjoint acc exNew := by
      rw [← hdsOf]; exact hacc n (List.mem_cons_self n rest)
    have hfalse : ¬ (sharesKey acc exNew = true) := by
      rw [(sharesKey_eq_false_iff acc exNew).mpr hdisj]
      simp
    rw [mergeAlias_cons_some db n rest acc exNew hex, if_neg hfalse,
      dictMerge_eq_append acc exNew hdisj]
    rw [List.pairwise_cons] at hpair
    rw [ih (acc ++ exNew) (fun m hm => hpres m (List.mem_cons_of_mem n hm)) hpair.2 ?_]
    · rw [List.map_cons, List.flatten_cons, hdsOf, List.append_assoc]
    · intro m hm
      rw [keysDisjoint_append]
      exact ⟨hacc m (List.mem_cons_of_mem n hm), hdsOf ▸ hpair.1 m hm⟩

/-- If the alias loop succeeds, the underlying datasets were pairwise
disjoint (and disjoint from the accumulator). -/
theorem mergeAlias_ok_inv (db : DatabaseDict) (us : List String) :
    ∀ (acc ex : List (String × Nat)),
    mergeAliasDatasets db us acc = .ok ex →
    us.Pairwise (fun m n => keysDisjoint (dsOf db m) (dsOf db n))
    ∧ ∀ n ∈ us, keysDisjoint acc (dsOf db n) := by
  induction us with
  | nil =>
    intro acc ex _
    exact ⟨List.Pairwise.nil, by intro n hn; cases hn⟩
  | cons n rest ih =>
    intro acc ex h
    cases hex : alookup db.datasets n with
    | none => rw [mergeAlias_cons_none db n rest acc hex] at h; cases h
    | some exNew =>
      rw [mergeAlias_cons_some db n rest acc exNew hex] at h
      have hdsOf : dsOf db n = exNew := by unfold dsOf; rw [hex]; rfl
      by_cases hs : sharesKey acc exNew = true
      · rw [if_pos hs] at h; cases h
      · rw [if_neg hs] at h
        obtain ⟨hpairRest, haccRest⟩ := ih (dictMerge acc exNew) ex h
        have hdisjAcc : keysDisjoint acc exNew :=
          (sharesKey_eq_false_iff acc exNew).mp (by
            cases hb : sharesKey acc exNew
            · rfl
            · exact absurd hb hs)
        have hdec : ∀ m ∈ rest,
            keysDisjoint acc (dsOf db m) ∧ keysDisjoint exNew (dsOf db m) :=
          fun m hm => keysDisjoint_of_dictMerge acc exNew _ (haccRest m hm)
        constructor
        · rw [List.pairwise_cons]
          exact ⟨fun m hm => hdsOf ▸ (hdec m hm).2, hpairRest⟩
        · intro m hm
          rcases List.mem_cons.mp hm with heq | hm2
          · rw [heq, hdsOf]; exact hdisjAcc
          · exact (hdec m hm2).1

/-- With every underlying name present, the alias loop either succeeds or
fails with the conflict assertion; no other outcome exists. -/
theorem mergeAlias_ok_or_conflict (db : DatabaseDict) (us : List String) :
    ∀ acc : List (String × Nat),
    (∀ n ∈ us, (alookup db.datasets n).isSome) →
    (∃ ex, mergeAliasDatasets db us acc = .ok ex)
    ∨ mergeAliasDatasets db us acc = .error .conflictError := by
  induction us with
  | nil => intro acc _; exact Or.inl ⟨acc, rfl⟩
  | cons n rest ih =>
    intro acc hpres
    obtain ⟨exNew, hex⟩ :=
      Option.isSome_iff_exists.mp (hpres n (List.mem_cons_self n rest))
    rw [mergeAlias_cons_some db n rest acc exNew hex]
    by_cases hs : sharesKey acc exNew = true
    · rw [if_pos hs]; exact Or.inr rfl
    · rw [if_neg hs]
      exact ih (dictMerge acc exNew) (fun m hm => hpres m (List.mem_cons_of_mem n hm))

/-- Claim C1: resolving an alias iterates its underlying dataset names in
declared order and unions their example mappings; when some identifier
occurs in more than one underlying dataset (the identifier sets are not
pairwise disjoint) it fails with the conflict error, and for
pairwise-disjoint identifier sets the merge succeeds, the merged mapping
being the underlying mappings concatenated in declared order, whose size
is the sum of the underlying sizes. -/
theorem alias_merge_conflict_or_sum (db : DatabaseDict) (name : String)
    (us : List String)
    (halias : alookup db.aliasMap name = some us)
    (hpres : ∀ n ∈ us, (alookup db.datasets n).isSome) :
    (¬ us.Pairwise (fun m n => keysDisjoint (dsOf db m) (dsOf db n)) →
        getDatasetFromDatabaseDict db name = .error .conflictError)
    ∧ (us.Pairwise (fun m n => keysDisjoint (dsOf db m) (dsOf db n)) →
        getDatasetFromDatabaseDict db name = .ok ((us.map (dsOf db)).flatten)
        ∧ ((us.map (dsOf db)).flatten).length
            = (us.map (fun n => (dsOf db n).length)).sum) := by
  have hres : getDatasetFromDatabaseDict db name = mergeAliasDatasets db us [] := by
    unfold getDatasetFromDatabaseDict
    rw [halias]
  constructor
  · intro hnp
    rcases mergeAlias_ok_or_conflict db us [] hpres with ⟨ex, hok⟩ | herr
    · exact absurd (mergeAlias_ok_inv db us [] ex hok).1 hnp
    · rw [hres]; exact herr
  · intro hp
    have hok := mergeAlias_ok_of_disjoint db us [] hpres hp
      (fun n _ => by intro k hk; cases hk)
    refine ⟨by rw [hres]; simpa using hok, ?_⟩
    rw [List.length_flatten, List.map_map]
    rfl

/-- A concrete document: two disjoint datasets and an alias over both. -/
def dbC1a : DatabaseDict :=
  ⟨[("train", [("u1", 0)]), ("test", [("u2", 1)])], [("all", ["train", "test"])]⟩

/-- A concrete document whose alias merges two datasets sharing the
identifier `u1`. -/
def dbC1b : DatabaseDict :=
  ⟨[("train", [("u1", 0)]), ("test", [("u1", 1)])], [("all", ["train", "test"])]⟩

/-- Witness for C1: on the disjoint document the alias resolves to the
concatenated mapping of size 2 = 1 + 1; on the conflicting document it
fails with the conflict error. -/
theorem alias_merge_conflict_or_sum_witness :
    (getDatasetFromDatabaseDict dbC1a "all"
        = .ok ((["train", "test"].map (dsOf dbC1a)).flatten)
      ∧ ((["train", "test"].map (dsOf dbC1a)).flatten).length
          = (["train", "test"].map (fun n => (dsOf dbC1a n).length)).sum)
    ∧ getDatasetFromDatabaseDict dbC1b "all" = .error .conflictError :=
  ⟨(alias_merge_conflict_or_sum dbC1a "all" ["train", "test"] (by decide)
      (by decide)).2 (by decide),
   (alias_merge_conflict_or_sum dbC1b "all" ["train", "test"] (by decide)
      (by decide)).1 (by decide)⟩

/-! ### Claim C10: fetching with `names = None` -/

/-- Claim C10: calling `get_dataset` with `names = None` always raises the
`TypeError` whose message names the valid dataset names, and never
returns a sequence over the complete database. -/
theorem get_dataset_none_raises_typeerror (db : DatabaseDict) (st : DBState) :
    getDataset db none st = (.error (.typeError (datasetNames db)), st)
    ∧ ∀ wids : List Nat, (getDataset db none st).1 ≠ .ok wids := by
  refine ⟨rfl, ?_⟩
  intro wids h
  cases h

/-! ### Claim C4: empty resolved mappings are rejected -/

/-- Claim C4: when the resolved mapping of a requested (not yet cached)
name has zero example entries, the fetch fails with the empty-dataset
error and the state is unchanged; resolving an intentionally empty
dataset is not supported by default. -/
theorem empty_dataset_rejected (db : DatabaseDict) (name : String) (st : DBState)
    (hmiss : alookup st.cache name = none)
    (ex : List (String × Nat))
    (hres : getDatasetFromDatabaseDict db name = .ok ex)
    (hempty : ex.length = 0) :
    getDatasetSingle db name st =
      { res := .error (.emptyDataset name), st := st, builds := 1 } := by
  unfold getDatasetSingle
  rw [hmiss, hres]
  simp only [hempty, if_pos]

/-- A concrete document with an empty dataset next to a regular one. -/
def dbC4 : DatabaseDict := ⟨[("train", [("u1", 0)]), ("empty", [])], []⟩

/-- Witness for C4: requesting the empty dataset fails with the
empty-dataset error. -/
theorem empty_dataset_rejected_witness :
    getDatasetSingle dbC4 "empty" (initState [(0, [])]) =
      { res := .error (.emptyDataset "empty"), st := initState [(0, [])],
        builds := 1 } :=
  empty_dataset_rejected dbC4 "empty" (initState [(0, [])]) rfl [] rfl rfl

/-! ### Claim C6: the record normalization and its idempotence -/

/-- Claim C6: normalization sets the example-identifier field to the
mapping key the record was stored under and the dataset-name field to the
requested name, in place on the record mapping; every other field keeps
its value, and normalizing a second time with the same identifier and
dataset name changes nothing at all (in particular no other field). -/
theorem normalize_sets_fields_and_idempotent (exampleId datasetName : String)
    (r : Record) (k : String)
    (hk1 : k ≠ EXAMPLE_ID) (hk2 : k ≠ DATASET_NAME) :
    rget (normalizeExample exampleId datasetName r) EXAMPLE_ID
        = some (Val.str exampleId)
    ∧ rget (normalizeExample exampleId datasetName r) DATASET_NAME
        = some (Val.str datasetName)
    ∧ rget (normalizeExample exampleId datasetName r) k = rget r k
    ∧ normalizeExample exampleId datasetName
        (normalizeExample exampleId datasetName r)
        = normalizeExample exampleId datasetName r := by
  have hED : EXAMPLE_ID ≠ DATASET_NAME := by decide
  have e1 : alookup (aset (aset r EXAMPLE_ID (Val.str exampleId)) DATASET_NAME
      (Val.str datasetName)) EXAMPLE_ID = some (Val.str exampleId) := by
    rw [alookup_aset_ne (aset r EXAMPLE_ID (Val.str exampleId)) DATASET_NAME
      EXAMPLE_ID (Val.str datasetName) (Ne.symm hED)]
    exact alookup_aset_self r EXAMPLE_ID (Val.str exampleId)
  have e2 : alookup (aset (aset r EXAMPLE_ID (Val.str exampleId)) DATASET_NAME
      (Val.str datasetName)) DATASET_NAME = some (Val.str datasetName) :=
    alookup_aset_self (aset r EXAMPLE_ID (Val.str exampleId)) DATASET_NAME
      (Val.str datasetName)
  have e3 : alookup (aset (aset r EXAMPLE_ID (Val.str exampleId)) DATASET_NAME
      (Val.str datasetName)) k = alookup r k := by
    rw [alookup_aset_ne (aset r EXAMPLE_ID (Val.str exampleId)) DATASET_NAME
      k (Val.str datasetName) (Ne.symm hk2)]
    exact alookup_aset_ne r EXAMPLE_ID k (Val.str exampleId) (Ne.symm hk1)
  have e4 : aset (aset (aset (aset r EXAMPLE_ID (Val.str exampleId)) DATASET_NAME
        (Val.str datasetName)) EXAMPLE_ID (Val.str exampleId)) DATASET_NAME
        (Val.str datasetName)
      = aset (aset r EXAMPLE_ID (Val.str exampleId)) DATASET_NAME
        (Val.str datasetName) := by
    rw [aset_eq_of_alookup (aset (aset r EXAMPLE_ID (Val.str exampleId))
      DATASET_NAME (Val.str datasetName)) EXAMPLE_ID (Val.str exampleId) e1]
    exact aset_eq_of_alookup _ DATASET_NAME (Val.str datasetName) e2
  exact ⟨e1, e2, e3, e4⟩

/-- Witness for C6 on a concrete record with an unrelated field. -/
theorem normalize_sets_fields_and_idempotent_witness :
    rget (normalizeExample "u1" "train" [("foo", Val.num 3)]) EXAMPLE_ID
        = some (Val.str "u1")
    ∧ rget (normalizeExample "u1" "train" [("foo", Val.num 3)]) DATASET_NAME
        = some (Val.str "train")
    ∧ rget (normalizeExample "u1" "train" [("foo", Val.num 3)]) "foo"
        = rget [("foo", Val.num 3)] "foo"
    ∧ normalizeExample "u1" "train" (normalizeExample "u1" "train" [("foo", Val.num 3)])
        = normalizeExample "u1" "train" [("foo", Val.num 3)] :=
  normalize_sets_fields_and_idempotent "u1" "train" [("foo", Val.num 3)] "foo"
    (by decide) (by decide)

/-! ### Claim C2: the weak materialization cache -/

/-- A binding that survives a filter is still found, with the same value
(`alookup` returns the first binding and `filter` preserves order). -/
theorem alookup_filter_keep {κ : Type u} {α : Type v} [DecidableEq κ]
    (l : List (κ × α)) (pred : κ × α → Bool) (key : κ) (v : α)
    (h : alookup l key = some v) (hp : pred (key, v) = true) :
    alookup (l.filter pred) key = some v := by
  induction l with
  | nil => simp at h
  | cons p rest ih =>
    obtain ⟨k, w⟩ := p
    by_cases hk : k = key
    · subst hk
      rw [alookup_cons, if_pos rfl] at h
      injection h with h
      subst h
      rw [List.filter_cons, if_pos hp]
      simp
    · rw [alookup_cons, if_neg hk] at h
      rw [List.filter_cons]
      by_cases hpk : pred (k, w) = true
      · rw [if_pos hpk, alookup_cons, if_neg hk]
        exact ih h
      · rw [if_neg hpk]
        exact ih h

theorem getDatasetSingle_hit (db : DatabaseDict) (name : String) (st : DBState)
    (wid : Nat) (h : alookup st.cache name = some wid) :
    getDatasetSingle db name st = { res := .ok wid, st := st, builds := 0 } := by
  simp only [getDatasetSingle, h]

theorem getDatasetSingle_miss_notfound (db : DatabaseDict) (name : String)
    (st : DBState) (hm : alookup st.cache name = none)
    (hres : getDatasetFromDatabaseDict db name = .error .keyNotFound) :
    getDatasetSingle db name st =
      { res := .error (.nameNotFound name
          (getCloseMatches name (datasetNames db) 5) (datasetNames db)),
        st := st, builds := 1 } := by
  simp only [getDatasetSingle, hm, hres]

theorem getDatasetSingle_miss_conflict (db : DatabaseDict) (name : String)
    (st : DBState) (hm : alookup st.cache name = none)
    (hres : getDatasetFromDatabaseDict db name = .error .conflictError) :
    getDatasetSingle db name st =
      { res := .error .conflictError, st := st, builds := 1 } := by
  simp only [getDatasetSingle, hm, hres]

theorem getDatasetSingle_miss_empty (db : DatabaseDict) (name : String)
    (st : DBState) (examples : List (String × Nat))
    (hm : alookup st.cache name = none)
    (hres : getDatasetFromDatabaseDict db name = .ok examples)
    (hlen : examples.length = 0) :
    getDatasetSingle db name st =
      { res := .error (.emptyDataset name), st := st, builds := 1 } := by
  unfold getDatasetSingle
  rw [hm, hres]
  simp only [hlen, if_pos]

theorem getDatasetSingle_miss_build (db : DatabaseDict) (name : String)
    (st : DBState) (examples : List (String × Nat))
    (hm : alookup st.cache name = none)
    (hres : getDatasetFromDatabaseDict db name = .ok examples)
    (hlen : ¬ examples.length = 0) :
    getDatasetSingle db name st =
      { res := .ok st.nextId,
        st := { store := normalizeInStore name examples st.store,
                cache := aset st.cache name st.nextId,
                wrappers := aset st.wrappers st.nextId
                  (examples.map (fun p =>
                    storeGet (normalizeInStore name examples st.store) p.2)),
                nextId := st.nextId + 1 },
        builds := 1 } := by
  simp only [getDatasetSingle, hm, hres]
  rw [if_neg hlen]

/-- Every raised error leaves the fetch state unchanged, with exactly one
build attempt performed. -/
theorem getDatasetSingle_error_inv (db : DatabaseDict) (name : String)
    (st : DBState) (e : DBError) (st2 : DBState) (b : Nat)
    (h : getDatasetSingle db name st = { res := .error e, st := st2, builds := b }) :
    st2 = st ∧ b = 1 := by
  cases hm : alookup st.cache name with
  | some wid =>
    rw [getDatasetSingle_hit db name st wid hm] at h
    cases h
  | none =>
    cases hres : getDatasetFromDatabaseDict db name with
    | ok examples =>
      by_cases hlen : examples.length = 0
      · rw [getDatasetSingle_miss_empty db name st examples hm hres hlen] at h
        injection h with h1 h2 h3
        exact ⟨h2.symm, h3.symm⟩
      · rw [getDatasetSingle_miss_build db name st examples hm hres hlen] at h
        cases h
    | error e2 =>
      cases e2 with
      | keyNotFound =>
        rw [getDatasetSingle_miss_notfound db name st hm hres] at h
        injection h with h1 h2 h3
        exact ⟨h2.symm, h3.symm⟩
      | conflictError =>
        rw [getDatasetSingle_miss_conflict db name st hm hres] at h
        injection h with h1 h2 h3
        exact ⟨h2.symm, h3.symm⟩
      | nameNotFound a b2 c =>
        simp only [getDatasetSingle, hm, hres] at h
        injection h with h1 h2 h3
        exact ⟨h2.symm, h3.symm⟩
      | emptyDataset a =>
        simp only [getDatasetSingle, hm, hres] at h
        injection h with h1 h2 h3
        exact ⟨h2.symm, h3.symm⟩
      | typeError a =>
        simp only [getDatasetSingle, hm, hres] at h
        injection h with h1 h2 h3
        exact ⟨h2.symm, h3.symm⟩

/-- A successful fetch leaves the returned wrapper bound to the name in
the cache. -/
theorem getDatasetSingle_ok_cached (db : DatabaseDict) (name : String)
    (st : DBState) (wid : Nat) (st2 : DBState) (b : Nat)
    (h : getDatasetSingle db name st = { res := .ok wid, st := st2, builds := b }) :
    alookup st2.cache name = some wid := by
  cases hm : alookup st.cache name with
  | some wid0 =>
    rw [getDatasetSingle_hit db name st wid0 hm] at h
    injection h with h1 h2 h3
    injection h1 with h1
    subst h1; subst h2
    exact hm
  | none =>
    cases hres : getDatasetFromDatabaseDict db name with
    | ok examples =>
      by_cases hlen : examples.length = 0
      · rw [getDatasetSingle_miss_empty db name st examples hm hres hlen] at h
        cases h
      · rw [getDatasetSingle_miss_build db name st examples hm hres hlen] at h
        injection h with h1 h2 h3
        injection h1 with h1
        subst h1
        rw [← h2]
        exact alookup_aset_self st.cache name st.nextId
    | error e2 =>
      cases e2 with
      | keyNotFound =>
        rw [getDatasetSingle_miss_notfound db name st hm hres] at h; cases h
      | conflictError =>
        rw [getDatasetSingle_miss_conflict db name st hm hres] at h; cases h
      | nameNotFound a b2 c => simp only [getDatasetSingle, hm, hres] at h; cases h
      | emptyDataset a => simp only [getDatasetSingle, hm, hres] at h; cases h
      | typeError a => simp only [getDatasetSingle, hm, hres] at h; cases h

/-- Claim C2: while the wrapper returned by a fetch is still strongly
referenced (its identity is in `live`, so garbage collection does not
evict its weak-dict entry), the next fetch of the same name returns the
identical wrapper (the same identity, not merely equal content) without
running the build again; and a failed fetch leaves the cache unchanged
(exactly one build was attempted and did not poison the cache), so the
next call for that name attempts the build again. -/
theorem weak_cache_identity_and_retry (db : DatabaseDict) (name : String)
    (st : DBState) :
    (∀ (wid : Nat) (st2 : DBState) (b : Nat),
        getDatasetSingle db name st = { res := .ok wid, st := st2, builds := b } →
        ∀ live : List Nat, wid ∈ live →
          getDatasetSingle db name (gcCollect live st2) =
            { res := .ok wid, st := gcCollect live st2, builds := 0 })
    ∧ (∀ (e : DBError) (st2 : DBState) (b : Nat),
        getDatasetSingle db name st = { res := .error e, st := st2, builds := b } →
        st2 = st ∧ (getDatasetSingle db name st2).builds = 1) := by
  constructor
  · intro wid st2 b h live hlive
    have hcached : alookup st2.cache name = some wid :=
      getDatasetSingle_ok_cached db name st wid st2 b h
    have hgc : alookup (gcCollect live st2).cache name = some wid := by
      unfold gcCollect
      exact alookup_filter_keep st2.cache _ name wid hcached (by simpa using hlive)
    exact getDatasetSingle_hit db name (gcCollect live st2) wid hgc
  · intro e st2 b h
    obtain ⟨hst, hb⟩ := getDatasetSingle_error_inv db name st e st2 b h
    subst hst
    refine ⟨rfl, ?_⟩
    rw [h]
    exact hb

/-- Witness for C2: after a concrete first fetch of `train` (one build,
wrapper identity 0), a second fetch with the wrapper still live returns
the identical wrapper without building; and a fetch of an unknown name
leaves the state unchanged with the next call still attempting one
build. -/
theorem weak_cache_identity_and_retry_witness :
    getDatasetSingle dbC1a "train"
        (gcCollect [0]
          (getDatasetSingle dbC1a "train" (initState [(0, []), (1, [])])).st)
      = { res := .ok 0,
          st := gcCollect [0]
            (getDatasetSingle dbC1a "train" (initState [(0, []), (1, [])])).st,
          builds := 0 }
    ∧ (getDatasetSingle dbC1a "bogus"
        (initState [(0, []), (1, [])])).builds = 1 :=
  ⟨(weak_cache_identity_and_retry dbC1a "train" (initState [(0, []), (1, [])])).1
      0 (getDatasetSingle dbC1a "train" (initState [(0, []), (1, [])])).st 1 rfl
      [0] (by decide),
   ((weak_cache_identity_and_retry dbC1a "bogus" (initState [(0, []), (1, [])])).2
      (.nameNotFound "bogus" (getCloseMatches "bogus" (datasetNames dbC1a) 5)
        (datasetNames dbC1a))
      (initState [(0, []), (1, [])]) 1 rfl).2⟩

/-! ### Claim C5: wrapper immutability versus the in-place augmentation

Fetching `train` and then the alias `all` over the document `dbC1a`
exercises record sharing between an alias and an underlying dataset. -/

/-- State after fetching `train` on a fresh database over two empty
records. -/
def stC5a : DBState :=
  (getDatasetSingle dbC1a "train" (initState [(0, []), (1, [])])).st

/-- State after additionally fetching the alias `all`. -/
def stC5b : DBState := (getDatasetSingle dbC1a "all" stC5a).st

/-- Counterexample to C5 as stated: fetching `train` and then the alias
`all` — two legitimate calls, no caller error — makes the
identifier/dataset-name augmentation overwrite the pre-existing differing
dataset-name value `train` with `all` on the record object shared between
the alias resolution and the underlying dataset. -/
theorem augmentation_overwrite_counterexample :
    rget (storeGet stC5a.store 0) DATASET_NAME = some (Val.str "train")
    ∧ rget (storeGet stC5b.store 0) DATASET_NAME = some (Val.str "all")
    ∧ some (Val.str "train") ≠ some (Val.str "all") := by
  refine ⟨rfl, rfl, ?_⟩
  intro h
  injection h with h
  injection h with h
  exact absurd h (by decide)

/-- Claim C5 amended: an already-built wrapper is never mutated by later
fetches (its snapshot is immutable), but the identifier/dataset-name
augmentation does overwrite a pre-existing differing dataset-name value
on record objects shared between an alias and one of its underlying
datasets: fetching the alias after the underlying dataset rewrites the
shared record's dataset-name field inside the database document, while
the earlier wrapper's own records stay unchanged. -/
theorem wrapper_immutable_but_records_overwritten :
    (∀ (db : DatabaseDict) (name : String) (st : DBState) (wid : Nat)
        (snap : List Record),
        wid < st.nextId → alookup st.wrappers wid = some snap →
        alookup ((getDatasetSingle db name st).st).wrappers wid = some snap)
    ∧ wrapperElems stC5b 0 = wrapperElems stC5a 0
    ∧ rget (storeGet stC5a.store 0) DATASET_NAME = some (Val.str "train")
    ∧ rget (storeGet stC5b.store 0) DATASET_NAME = some (Val.str "all") := by
  refine ⟨?_, rfl, rfl, rfl⟩
  intro db name st wid snap hlt hw
  cases hm : alookup st.cache name with
  | some wid0 =>
    rw [getDatasetSingle_hit db name st wid0 hm]
    exact hw
  | none =>
    cases hres : getDatasetFromDatabaseDict db name with
    | ok examples =>
      by_cases hlen : examples.length = 0
      · rw [getDatasetSingle_miss_empty db name st examples hm hres hlen]
        exact hw
      · rw [getDatasetSingle_miss_build db name st examples hm hres hlen]
        have hne : st.nextId ≠ wid := fun he => absurd (he ▸ hlt) (lt_irrefl _)
        rw [alookup_aset_ne st.wrappers st.nextId wid _ hne]
        exact hw
    | error e2 =>
      cases e2 with
      | keyNotFound =>
        rw [getDatasetSingle_miss_notfound db name st hm hres]; exact hw
      | conflictError =>
        rw [getDatasetSingle_miss_conflict db name st hm hres]; exact hw
      | nameNotFound a b c => simp only [getDatasetSingle, hm, hres]; exact hw
      | emptyDataset a => simp only [getDatasetSingle, hm, hres]; exact hw
      | typeError a => simp only [getDatasetSingle, hm, hres]; exact hw

/-- Witness for the amended C5: the wrapper built for `train` (identity
0, one normalized record) survives a later fetch of `test` untouched. -/
theorem wrapper_immutable_but_records_overwritten_witness :
    alookup ((getDatasetSingle dbC1a "test" stC5b).st).wrappers 0
      = some [[(EXAMPLE_ID, Val.str "u1"), (DATASET_NAME, Val.str "train")]] :=
  wrapper_immutable_but_records_overwritten.1 dbC1a "test" stC5b 0
    [[(EXAMPLE_ID, Val.str "u1"), (DATASET_NAME, Val.str "train")]]
    (by decide) rfl

/-! ### Claim C3: unknown names, the suggestion-carrying error -/

/-- Claim C3 amended: requesting a name that is neither a datasets key nor
an alias key fails with the name-not-found error carrying the queried
name, the valid dataset names, and the top-5 ranked fuzzy suggestions;
when the queried name is a single-character typo of a valid name and
there are at most five valid names, that valid name is among the
suggestions. -/
theorem name_not_found_with_suggestions (db : DatabaseDict) (name : String)
    (st : DBState)
    (hmiss : alookup st.cache name = none)
    (hnd : name ∉ db.datasets.map Prod.fst)
    (hna : name ∉ db.aliasMap.map Prod.fst) :
    getDatasetSingle db name st =
      { res := .error (.nameNotFound name
          (getCloseMatches name (datasetNames db) 5) (datasetNames db)),
        st := st, builds := 1 }
    ∧ ((datasetNames db).length ≤ 5 →
        ∀ v ∈ datasetNames db, editDist name.toList v.toList = 1 →
          v ∈ getCloseMatches name (datasetNames db) 5) := by
  have hres : getDatasetFromDatabaseDict db name = .error .keyNotFound := by
    simp only [getDatasetFromDatabaseDict, (alookup_eq_none_iff db.aliasMap name).mpr hna,
      (alookup_eq_none_iff db.datasets name).mpr hnd]
  exact ⟨getDatasetSingle_miss_notfound db name st hmiss hres,
    fun hlen v hv _ =>
      mem_getCloseMatches_of_length_le name (datasetNames db) 5 hlen v hv⟩

/-- Witness for the amended C3: `rain` is one edit from `train`; with the
three valid names of `dbC1a` the error carries suggestions that include
`train`. -/
theorem name_not_found_with_suggestions_witness :
    getDatasetSingle dbC1a "rain" (initState []) =
      { res := .error (.nameNotFound "rain"
          (getCloseMatches "rain" (datasetNames dbC1a) 5) (datasetNames dbC1a)),
        st := initState [], builds := 1 }
    ∧ "train" ∈ getCloseMatches "rain" (datasetNames dbC1a) 5 := by
  have h := name_not_found_with_suggestions dbC1a "rain" (initState [])
    rfl (by decide) (by decide)
  exact ⟨h.1, h.2 (by decide) "train" (by decide) (by decide)⟩

/-- A document with six valid names, five of which rate closer to the
query `aab` than the sixth. -/
def dbC3 : DatabaseDict :=
  ⟨[("aab1", [("u1", 0)]), ("aab2", [("u2", 1)]), ("aab3", [("u3", 2)]),
    ("aab4", [("u4", 3)]), ("aab5", [("u5", 4)]), ("aac", [("u6", 5)])], []⟩

/-- Counterexample to C3 as stated: `aab` is a single-character typo of
the valid name `aac`, yet the top-5 suggestion list of the raised error
consists of the five higher-rated names and omits `aac`. -/
theorem typo_suggestion_counterexample :
    editDist "aab".toList "aac".toList = 1
    ∧ "aac" ∈ datasetNames dbC3
    ∧ (getDatasetSingle dbC3 "aab" (initState [])).res
        = .error (.nameNotFound "aab" ["aab5", "aab4", "aab3", "aab2", "aab1"]
            (datasetNames dbC3))
    ∧ "aac" ∉ ["aab5", "aab4", "aab3", "aab2", "aab1"] := by
  exact ⟨by decide, by decide, rfl, by decide⟩

/-! ### Claim C7: concatenation order and restartability -/

/-- The state produced by a successful build of `name` (the else-branch of
`get_dataset`), named for reuse in proofs. -/
def buildState (name : String) (st : DBState) (examples : List (String × Nat)) :
    DBState :=
  { store := normalizeInStore name examples st.store,
    cache := aset st.cache name st.nextId,
    wrappers := aset st.wrappers st.nextId
      (examples.map (fun p => storeGet (normalizeInStore name examples st.store) p.2)),
    nextId := st.nextId + 1 }

/-- The three possible outcomes of a single fetch: a cache hit, a raised
error (state unchanged), or a fresh build. -/
theorem getDatasetSingle_cases (db : DatabaseDict) (name : String) (st : DBState) :
    (∃ wid, alookup st.cache name = some wid ∧
        getDatasetSingle db name st = { res := .ok wid, st := st, builds := 0 })
    ∨ (∃ e, getDatasetSingle db name st = { res := .error e, st := st, builds := 1 })
    ∨ (∃ examples, alookup st.cache name = none
        ∧ getDatasetFromDatabaseDict db name = .ok examples
        ∧ ¬ examples.length = 0
        ∧ getDatasetSingle db name st =
          { res := .ok st.nextId, st := buildState name st examples, builds := 1 }) := by
  cases hm : alookup st.cache name with
  | some wid => exact Or.inl ⟨wid, rfl, getDatasetSingle_hit db name st wid hm⟩
  | none =>
    cases hres : getDatasetFromDatabaseDict db name with
    | ok examples =>
      by_cases hlen : examples.length = 0
      · exact Or.inr (Or.inl ⟨.emptyDataset name,
          getDatasetSingle_miss_empty db name st examples hm hres hlen⟩)
      · exact Or.inr (Or.inr ⟨examples, rfl, rfl, hlen,
          getDatasetSingle_miss_build db name st examples hm hres hlen⟩)
    | error e2 =>
      cases e2 with
      | keyNotFound =>
        exact Or.inr (Or.inl ⟨.nameNotFound name
          (getCloseMatches name (datasetNames db) 5) (datasetNames db),
          getDatasetSingle_miss_notfound db name st hm hres⟩)
      | conflictError =>
        exact Or.inr (Or.inl ⟨.conflictError,
          getDatasetSingle_miss_conflict db name st hm hres⟩)
      | nameNotFound a b c =>
        exact Or.inr (Or.inl ⟨.nameNotFound a b c,
          by simp only [getDatasetSingle, hm, hres]⟩)
      | emptyDataset a =>
        exact Or.inr (Or.inl ⟨.emptyDataset a,
          by simp only [getDatasetSingle, hm, hres]⟩)
      | typeError a =>
        exact Or.inr (Or.inl ⟨.typeError a,
          by simp only [getDatasetSingle, hm, hres]⟩)

/-- Wrapper identities never decrease across a fetch. -/
theorem getDatasetSingle_nextId_mono (db : DatabaseDict) (name : String)
    (st : DBState) : st.nextId ≤ ((getDatasetSingle db name st).st).nextId := by
  rcases getDatasetSingle_cases db name st with
    ⟨wid, _, heq⟩ | ⟨e, heq⟩ | ⟨ex, _, _, _, heq⟩
  · rw [heq]
  · rw [heq]
  · rw [heq]
    exact Nat.le_succ st.nextId

/-- A fetch never touches a wrapper whose identity was already
allocated. -/
theorem getDatasetSingle_wrappers_preserved (db : DatabaseDict) (name : String)
    (st : DBState) (wid : Nat) (hlt : wid < st.nextId) :
    alookup ((getDatasetSingle db name st).st).wrappers wid
      = alookup st.wrappers wid := by
  rcases getDatasetSingle_cases db name st with
    ⟨wid0, _, heq⟩ | ⟨e, heq⟩ | ⟨ex, _, _, _, heq⟩
  · rw [heq]
  · rw [heq]
  · rw [heq]
    exact alookup_aset_ne st.wrappers st.nextId wid _
      (fun he => absurd (he ▸ hlt) (lt_irrefl _))

@[simp] theorem getDatasetList_nil (db : DatabaseDict) (st : DBState) :
    getDatasetList db [] st = (.ok [], st) := rfl

theorem getDatasetList_cons_err (db : DatabaseDict) (n : String)
    (rest : List String) (st : DBState) (e : DBError)
    (h1 : (getDatasetSingle db n st).res = .error e) :
    getDatasetList db (n :: rest) st = (.error e, (getDatasetSingle db n st).st) := by
  simp only [getDatasetList, h1]

theorem getDatasetList_cons_ok_ok (db : DatabaseDict) (n : String)
    (rest : List String) (st : DBState) (wid : Nat) (wids2 : List Nat) (s2 : DBState)
    (h1 : (getDatasetSingle db n st).res = .ok wid)
    (h2 : getDatasetList db rest (getDatasetSingle db n st).st = (.ok wids2, s2)) :
    getDatasetList db (n :: rest) st = (.ok (wid :: wids2), s2) := by
  simp only [getDatasetList, h1, h2]

theorem getDatasetList_cons_ok_err (db : DatabaseDict) (n : String)
    (rest : List String) (st : DBState) (wid : Nat) (e : DBError) (s2 : DBState)
    (h1 : (getDatasetSingle db n st).res = .ok wid)
    (h2 : getDatasetList db rest (getDatasetSingle db n st).st = (.error e, s2)) :
    getDatasetList db (n :: rest) st = (.error e, s2) := by
  simp only [getDatasetList, h1, h2]

/-- Across a whole `get_dataset` loop, wrapper identities grow and
already-allocated wrappers are untouched. -/
theorem getDatasetList_preserves (db : DatabaseDict) :
    ∀ (names : List String) (st : DBState) (r : Except DBError (List Nat))
      (st2 : DBState),
    getDatasetList db names st = (r, st2) →
    st.nextId ≤ st2.nextId
    ∧ ∀ wid, wid < st.nextId → alookup st2.wrappers wid = alookup st.wrappers wid := by
  intro names
  induction names with
  | nil =>
    intro st r st2 h
    injection h with h1 h2
    subst h2
    exact ⟨le_rfl, fun _ _ => rfl⟩
  | cons n rest ih =>
    intro st r st2 h
    cases hres : (getDatasetSingle db n st).res with
    | error e =>
      rw [getDatasetList_cons_err db n rest st e hres] at h
      injection h with h1 h2
      subst h2
      exact ⟨getDatasetSingle_nextId_mono db n st,
        fun wid hlt => getDatasetSingle_wrappers_preserved db n st wid hlt⟩
    | ok wid =>
      cases hrest : getDatasetList db rest (getDatasetSingle db n st).st with
      | mk r2 s2 =>
        have hmono1 := getDatasetSingle_nextId_mono db n st
        have hstep := ih (getDatasetSingle db n st).st r2 s2 hrest
        have hcomb : st.nextId ≤ s2.nextId := le_trans hmono1 hstep.1
        have hpres : ∀ wid2, wid2 < st.nextId →
            alookup s2.wrappers wid2 = alookup st.wrappers wid2 := by
          intro wid2 hlt
          rw [hstep.2 wid2 (lt_of_lt_of_le hlt hmono1)]
          exact getDatasetSingle_wrappers_preserved db n st wid2 hlt
        cases r2 with
        | ok wids2 =>
          rw [getDatasetList_cons_ok_ok db n rest st wid wids2 s2 hres hrest] at h
          injection h with h1 h2
          subst h2
          exact ⟨hcomb, hpres⟩
        | error e =>
          rw [getDatasetList_cons_ok_err db n rest st wid e s2 hres hrest] at h
          injection h with h1 h2
          subst h2
          exact ⟨hcomb, hpres⟩

@[simp] theorem normalizeInStore_nil (name : String) (store : Store) :
    normalizeInStore name [] store = store := rfl

theorem normalizeInStore_cons (name : String) (q : String × Nat)
    (rest : List (String × Nat)) (store : Store) :
    normalizeInStore name (q :: rest) store =
      normalizeInStore name rest
        (aset store q.2 (normalizeExample q.1 name (storeGet store q.2))) := rfl

/-- The normalization loop leaves addresses outside the mapping alone. -/
theorem normalizeInStore_untouched (name : String) (examples : List (String × Nat)) :
    ∀ (store : Store) (addr : Nat), addr ∉ examples.map Prod.snd →
    alookup (normalizeInStore name examples store) addr = alookup store addr := by
  induction examples with
  | nil => intro store addr _; rfl
  | cons q rest ih =>
    intro store addr h
    rw [List.map_cons, List.mem_cons, not_or] at h
    rw [normalizeInStore_cons, ih _ addr h.2]
    exact alookup_aset_ne store q.2 addr _ (fun he => h.1 he.symm)

/-- With pairwise-distinct record objects, the normalization loop rewrites
each record exactly once, to its normalized form. -/
theorem normalizeInStore_get (name : String) (examples : List (String × Nat)) :
    ∀ store : Store, (examples.map Prod.snd).Nodup →
    ∀ p ∈ examples, storeGet (normalizeInStore name examples store) p.2
      = normalizeExample p.1 name (storeGet store p.2) := by
  induction examples with
  | nil => intro store _ p hp; cases hp
  | cons q rest ih =>
    intro store hnd p hp
    rw [List.map_cons, List.nodup_cons] at hnd
    rcases List.mem_cons.mp hp with heq | hm
    · subst heq
      rw [normalizeInStore_cons]
      unfold storeGet
      rw [normalizeInStore_untouched name rest _ p.2 hnd.1, alookup_aset_self]
      rfl
    · have hne : q.2 ≠ p.2 := by
        intro he
        exact hnd.1 (he ▸ List.mem_map.mpr ⟨p, hm, rfl⟩)
      rw [normalizeInStore_cons, ih _ hnd.2 p hm]
      unfold storeGet
      rw [alookup_aset_ne store q.2 p.2 _ hne]

/-- Normalization stamps the mapping key into the example-identifier
field. -/
theorem rget_normalizeExample_id (eid n : String) (r : Record) :
    rget (normalizeExample eid n r) EXAMPLE_ID = some (Val.str eid) := by
  unfold normalizeExample rget rset
  rw [alookup_aset_ne (aset r EXAMPLE_ID (Val.str eid)) DATASET_NAME EXAMPLE_ID
    (Val.str n) (by decide)]
  exact alookup_aset_self r EXAMPLE_ID (Val.str eid)

/-- Executable form of "the resolved mapping of `n` holds pairwise
distinct record objects" (always true for documents loaded from storage;
stated as an explicit hypothesis of the order theorem). -/
def resolvedAddrsNodupB (db : DatabaseDict) (n : String) : Bool :=
  match getDatasetFromDatabaseDict db n with
  | .ok ex => decide ((ex.map Prod.snd).Nodup)
  | .error _ => true

theorem nodup_of_resolvedAddrs (db : DatabaseDict) (n : String)
    (ex : List (String × Nat)) (hb : resolvedAddrsNodupB db n = true)
    (hres : getDatasetFromDatabaseDict db n = .ok ex) :
    (ex.map Prod.snd).Nodup := by
  simp only [resolvedAddrsNodupB, hres] at hb
  exact of_decide_eq_true hb

/-- The invariant carried through the `get_dataset` loop: every cached
wrapper was allocated earlier and its elements project, on the
example-identifier field, to the declared keys of its name's resolved
mapping. -/
def CacheInv (db : DatabaseDict) (st : DBState) : Prop :=
  ∀ n wid, alookup st.cache n = some wid →
    wid < st.nextId
    ∧ (wrapperElems st wid).map (fun r => rget r EXAMPLE_ID)
        = (resolvedKeys db n).map (fun k => some (Val.str k))

/-- A fresh build establishes the invariant and stamps the resolved keys
into the new wrapper, in declared order. -/
theorem buildState_cacheInv (db : DatabaseDict) (name : String) (st : DBState)
    (examples : List (String × Nat))
    (hres : getDatasetFromDatabaseDict db name = .ok examples)
    (hnd : (examples.map Prod.snd).Nodup)
    (hinv : CacheInv db st) :
    CacheInv db (buildState name st examples)
    ∧ (wrapperElems (buildState name st examples) st.nextId).map
        (fun r => rget r EXAMPLE_ID)
      = (resolvedKeys db name).map (fun k => some (Val.str k)) := by
  have hsnap := normalizeInStore_get name examples st.store hnd
  have hel : wrapperElems (buildState name st examples) st.nextId
      = examples.map (fun p =>
          storeGet (normalizeInStore name examples st.store) p.2) := by
    unfold wrapperElems buildState
    rw [alookup_aset_self]
    rfl
  have hkeys : resolvedKeys db name = examples.map Prod.fst := by
    unfold resolvedKeys
    rw [hres]
  have hgood : (wrapperElems (buildState name st examples) st.nextId).map
      (fun r => rget r EXAMPLE_ID)
      = (resolvedKeys db name).map (fun k => some (Val.str k)) := by
    rw [hel, hkeys, List.map_map, List.map_map]
    apply List.map_congr_left
    intro p hp
    show rget (storeGet (normalizeInStore name examples st.store) p.2) EXAMPLE_ID
        = some (Val.str p.1)
    rw [hsnap p hp]
    exact rget_normalizeExample_id p.1 name (storeGet st.store p.2)
  refine ⟨?_, hgood⟩
  intro n2 wid2 hc
  have hc2 : alookup (aset st.cache name st.nextId) n2 = some wid2 := hc
  by_cases hn2 : n2 = name
  · subst hn2
    rw [alookup_aset_self] at hc2
    injection hc2 with hc2
    subst hc2
    exact ⟨Nat.lt_succ_self st.nextId, hgood⟩
  · have hc3 : alookup st.cache n2 = some wid2 := by
      rw [← alookup_aset_ne st.cache name n2 st.nextId (fun he => hn2 he.symm)]
      exact hc2
    obtain ⟨hlt2, hmap2⟩ := hinv n2 wid2 hc3
    have helems : wrapperElems (buildState name st examples) wid2
        = wrapperElems st wid2 := by
      unfold wrapperElems buildState
      rw [alookup_aset_ne st.wrappers st.nextId wid2 _
        (fun he => absurd (he ▸ hlt2) (lt_irrefl _))]
    refine ⟨Nat.lt_succ_of_lt hlt2, ?_⟩
    rw [helems]
    exact hmap2

/-- One fetch preserves the invariant; a returned wrapper is allocated
and carries its name's resolved keys in order. -/
theorem getDatasetSingle_cacheInv (db : DatabaseDict) (name : String)
    (st : DBState)
    (hnodup : ∀ ex, getDatasetFromDatabaseDict db name = .ok ex →
        (ex.map Prod.snd).Nodup)
    (hinv : CacheInv db st) :
    CacheInv db ((getDatasetSingle db name st).st)
    ∧ ∀ wid, (getDatasetSingle db name st).res = .ok wid →
        wid < ((getDatasetSingle db name st).st).nextId
        ∧ (wrapperElems ((getDatasetSingle db name st).st) wid).map
            (fun r => rget r EXAMPLE_ID)
          = (resolvedKeys db name).map (fun k => some (Val.str k)) := by
  rcases getDatasetSingle_cases db name st with
    ⟨wid0, hm, heq⟩ | ⟨e, heq⟩ | ⟨examples, hm, hres, hlen, heq⟩
  · rw [heq]
    refine ⟨hinv, ?_⟩
    intro wid hw
    have hw2 : (Except.ok wid0 : Except DBError Nat) = .ok wid := hw
    injection hw2 with hw2
    subst hw2
    exact hinv name wid0 hm
  · rw [heq]
    refine ⟨hinv, ?_⟩
    intro wid hw
    exact Except.noConfusion hw
  · rw [heq]
    obtain ⟨hinv2, hgood⟩ := buildState_cacheInv db name st examples hres
      (hnodup examples hres) hinv
    refine ⟨hinv2, ?_⟩
    intro wid hw
    have hw2 : (Except.ok st.nextId : Except DBError Nat) = .ok wid := hw
    injection hw2 with hw2
    subst hw2
    exact ⟨Nat.lt_succ_self st.nextId, hgood⟩

/-- Along a successful `get_dataset` run, the returned wrappers correspond
one-to-one, in order, to the requested names, and each wrapper's elements
project on the example-identifier field to that name's resolved keys. -/
theorem getDatasetList_good (db : DatabaseDict) :
    ∀ (names : List String) (st : DBState) (wids : List Nat) (st2 : DBState),
    (∀ n ∈ names, resolvedAddrsNodupB db n = true) →
    CacheInv db st →
    getDatasetList db names st = (.ok wids, st2) →
    wids.map (fun wid => (wrapperElems st2 wid).map (fun r => rget r EXAMPLE_ID))
      = names.map (fun n => (resolvedKeys db n).map (fun k => some (Val.str k))) := by
  intro names
  induction names with
  | nil =>
    intro st wids st2 _ _ h
    injection h with h1 h2
    injection h1 with h1
    subst h1
    rfl
  | cons n rest ih =>
    intro st wids st2 hall hinv h
    cases hres : (getDatasetSingle db n st).res with
    | error e =>
      rw [getDatasetList_cons_err db n rest st e hres] at h
      injection h with h1 h2
      cases h1
    | ok wid =>
      cases hrest : getDatasetList db rest (getDatasetSingle db n st).st with
      | mk r2 s2 =>
        cases r2 with
        | error e2 =>
          rw [getDatasetList_cons_ok_err db n rest st wid e2 s2 hres hrest] at h
          injection h with h1 h2
          cases h1
        | ok wids2 =>
          rw [getDatasetList_cons_ok_ok db n rest st wid wids2 s2 hres hrest] at h
          injection h with h1 h2
          injection h1 with h1
          subst h1
          subst h2
          have hnodup : ∀ ex, getDatasetFromDatabaseDict db n = .ok ex →
              (ex.map Prod.snd).Nodup :=
            fun ex hex => nodup_of_resolvedAddrs db n ex
              (hall n (List.mem_cons_self n rest)) hex
          obtain ⟨hinv1, hok⟩ := getDatasetSingle_cacheInv db n st hnodup hinv
          obtain ⟨hwlt, hwmap⟩ := hok wid hres
          have htail := ih (getDatasetSingle db n st).st wids2 s2
            (fun m hm => hall m (List.mem_cons_of_mem n hm)) hinv1 hrest
          have hpres := getDatasetList_preserves db rest
            (getDatasetSingle db n st).st (.ok wids2) s2 hrest
          have hw2 : wrapperElems s2 wid
              = wrapperElems (getDatasetSingle db n st).st wid := by
            unfold wrapperElems
            rw [hpres.2 wid hwlt]
          rw [List.map_cons, List.map_cons, hw2, hwmap, htail]

/-- Claim C7: over a fresh database, a successful `get_dataset` on a list
of names returns the concatenated sequence that yields all elements of
the first name's resolved dataset in its mapping's iteration order, then
all of the second, and so on (witnessed by the example-identifier
projection equalling the resolved key lists flattened in request order);
and the sequence is restartable: a fresh iteration yields exactly the
sequence, so iterating twice yields the same elements in the same
order. -/
theorem concatenation_order_and_restartable (db : DatabaseDict) (store : Store)
    (names : List String) (wids : List Nat) (st2 : DBState)
    (hall : ∀ n ∈ names, resolvedAddrsNodupB db n = true)
    (hrun : getDatasetList db names (initState store) = (.ok wids, st2)) :
    (concatElems st2 wids).map (fun r => rget r EXAMPLE_ID)
      = ((names.map (resolvedKeys db)).flatten).map (fun k => some (Val.str k))
    ∧ runIter (mkIter (concatElems st2 wids)) = concatElems st2 wids := by
  have hinv0 : CacheInv db (initState store) := by
    intro n wid hc
    cases hc
  have hmaps := getDatasetList_good db names (initState store) wids st2
    hall hinv0 hrun
  constructor
  · unfold concatElems
    rw [List.map_flatten, List.map_flatten, List.map_map, List.map_map]
    exact congrArg List.flatten hmaps
  · exact runIter_mkIter (concatElems st2 wids)

/-- Witness for C7: requesting `train` then `test` on a fresh database
over `dbC1a` yields wrappers 0 and 1, whose concatenation carries the
example identifiers `u1` then `u2`, and re-iterating reproduces it. -/
theorem concatenation_order_and_restartable_witness :
    (concatElems (getDatasetList dbC1a ["train", "test"]
          (initState [(0, []), (1, [])])).2 [0, 1]).map
        (fun r => rget r EXAMPLE_ID)
      = ((["train", "test"].map (resolvedKeys dbC1a)).flatten).map
          (fun k => some (Val.str k))
    ∧ runIter (mkIter (concatElems (getDatasetList dbC1a ["train", "test"]
          (initState [(0, []), (1, [])])).2 [0, 1]))
      = concatElems (getDatasetList dbC1a ["train", "test"]
          (initState [(0, []), (1, [])])).2 [0, 1] :=
  concatenation_order_and_restartable dbC1a [(0, []), (1, [])] ["train", "test"]
    [0, 1]
    (getDatasetList dbC1a ["train", "test"] (initState [(0, []), (1, [])])).2
    (by decide) rfl

/-! ### Claims C8 and C9: the Kaldi recipe adapter

The adapter functions are pure over the contents of the per-dataset line
tables; the surrounding file IO (glob, `load_keyed_lines`) only produces
these tables. -/

inductive KaldiError : Type where
  /-- `MalformedDatasetError` (caught and logged by the directory scan). -/
  | malformedDataset : String → KaldiError
  /-- A plain `KeyError` from the gender or transcription lookup or from
  `num_samples_dict[key]` — not caught anywhere in the adapter. -/
  | lookupError : KaldiError
  deriving DecidableEq

/-- The line tables of one dataset subdirectory: `wav.scp` (loaded with
`to_list=True`, one token list per line), `utt2spk`, `text`, and the
optional `spk2gender`. -/
structure KaldiFiles : Type where
  scp : List (String × List String)
  utt2spk : List (String × String)
  text : List (String × String)
  spk2gender : Option (List (String × String))

/-- `_audio_path`: a single token is the path itself, otherwise the
second-to-last token of the command-style entry (`s[-2]`); entries are
non-empty in any loadable table. -/
def audioPath (s : List String) : String :=
  if s.length = 1 then s.headD "" else (s.drop (s.length - 2)).headD ""

/-- The loop body of `KaldiDatabase.get_examples_from_dataset` for one
`wav.scp` entry: the audio path, then the speaker id — whose absence
raises the malformed-dataset error — then the gender (an uncaught lookup
if the table is present but incomplete) and the transcription. -/
def buildKaldiExample (f : KaldiFiles) (eid : String) (tokens : List String) :
    Except KaldiError Record :=
  match alookup f.utt2spk eid with
  | none => .error (.malformedDataset eid)
  | some spk =>
    match f.spk2gender with
    | some g2 =>
      match alookup g2 spk with
      | none => .error .lookupError
      | some g =>
        match alookup f.text eid with
        | none => .error .lookupError
        | some t =>
          .ok (rset (rset (rset [(AUDIO_PATH,
            Val.vmap [(OBSERVATION, Val.str (audioPath tokens))])]
            SPEAKER_ID (Val.str spk)) GENDER (Val.str g))
            KALDI_TRANSCRIPTION (Val.str t))
    | none =>
      match alookup f.text eid with
      | none => .error .lookupError
      | some t =>
        .ok (rset (rset [(AUDIO_PATH,
          Val.vmap [(OBSERVATION, Val.str (audioPath tokens))])]
          SPEAKER_ID (Val.str spk)) KALDI_TRANSCRIPTION (Val.str t))

/-- The loop of `get_examples_from_dataset` over the `wav.scp` entries in
order; the first failing entry aborts the whole dataset. -/
def buildKaldiExamples (f : KaldiFiles) :
    List (String × List String) → Except KaldiError (List (String × Record))
  | [] => .ok []
  | (eid, toks) :: rest =>
    match buildKaldiExample f eid toks with
    | .error e => .error e
    | .ok r =>
      match buildKaldiExamples f rest with
      | .error e => .error e
      | .ok rs => .ok ((eid, r) :: rs)

/-- `KaldiDatabase.get_examples_from_dataset`. -/
def getExamplesFromDataset (f : KaldiFiles) :
    Except KaldiError (List (String × Record)) :=
  buildKaldiExamples f f.scp

/-- `KaldiDatabase.get_dataset_dict_from_kaldi`: scan the dataset
subdirectories in order; a malformed dataset is logged and skipped — the
scan continues — while any other error propagates uncaught. -/
def getDatasetDictFromKaldi :
    List (String × KaldiFiles) →
      Except KaldiError (List (String × List (String × Record)))
  | [] => .ok []
  | (name, files) :: rest =>
    match getExamplesFromDataset files with
    | .error (.malformedDataset _) => getDatasetDictFromKaldi rest
    | .error e => .error e
    | .ok exs =>
      match getDatasetDictFromKaldi rest with
      | .error e => .error e
      | .ok dict => .ok ((name, exs) :: dict)

/-- Executable per-entry condition "the text and (when the gender table
exists) gender lookups succeed", isolating the malformed-dataset failure
from the uncaught lookup errors. -/
def entryLookupsOkB (f : KaldiFiles) (eid : String) : Bool :=
  (alookup f.text eid).isSome &&
    (match alookup f.utt2spk eid with
     | none => true
     | some spk =>
       match f.spk2gender with
       | none => true
       | some g2 => (alookup g2 spk).isSome)

theorem buildKaldiExample_ok_of_lookups (f : KaldiFiles) (eid : String)
    (toks : List String) (spk : String)
    (hspk : alookup f.utt2spk eid = some spk)
    (hlk : entryLookupsOkB f eid = true) :
    ∃ r, buildKaldiExample f eid toks = .ok r := by
  unfold entryLookupsOkB at hlk
  rw [hspk, Bool.and_eq_true] at hlk
  obtain ⟨htext, hgen⟩ := hlk
  obtain ⟨t, ht⟩ := Option.isSome_iff_exists.mp htext
  cases hg2 : f.spk2gender with
  | none =>
    refine ⟨rset (rset [(AUDIO_PATH,
      Val.vmap [(OBSERVATION, Val.str (audioPath toks))])]
      SPEAKER_ID (Val.str spk)) KALDI_TRANSCRIPTION (Val.str t), ?_⟩
    simp only [buildKaldiExample, hspk, hg2, ht]
  | some g2 =>
    rw [hg2] at hgen
    obtain ⟨g, hg⟩ := Option.isSome_iff_exists.mp hgen
    refine ⟨rset (rset (rset [(AUDIO_PATH,
      Val.vmap [(OBSERVATION, Val.str (audioPath toks))])]
      SPEAKER_ID (Val.str spk)) GENDER (Val.str g))
      KALDI_TRANSCRIPTION (Val.str t), ?_⟩
    simp only [buildKaldiExample, hspk, hg2, hg, ht]

theorem buildKaldiExample_malformed (f : KaldiFiles) (eid : String)
    (toks : List String) (hnone : alookup f.utt2spk eid = none) :
    buildKaldiExample f eid toks = .error (.malformedDataset eid) := by
  simp only [buildKaldiExample, hnone]

/-- With sound text and gender tables, a `wav.scp` identifier missing from
`utt2spk` makes the example construction fail with the malformed-dataset
error. -/
theorem buildKaldiExamples_malformed (f : KaldiFiles) :
    ∀ entries : List (String × List String),
    (∀ p ∈ entries, entryLookupsOkB f p.1 = true) →
    (∃ p ∈ entries, alookup f.utt2spk p.1 = none) →
    ∃ eid, buildKaldiExamples f entries = .error (.malformedDataset eid) := by
  intro entries
  induction entries with
  | nil =>
    intro _ hmiss
    obtain ⟨p, hp, _⟩ := hmiss
    cases hp
  | cons q rest ih =>
    intro hlk hmiss
    obtain ⟨eid, toks⟩ := q
    cases hspk : alookup f.utt2spk eid with
    | none =>
      refine ⟨eid, ?_⟩
      simp only [buildKaldiExamples,
        buildKaldiExample_malformed f eid toks hspk]
    | some spk =>
      obtain ⟨r, hr⟩ := buildKaldiExample_ok_of_lookups f eid toks spk hspk
        (hlk (eid, toks) (List.mem_cons_self _ _))
      have hrest : ∃ p ∈ rest, alookup f.utt2spk p.1 = none := by
        obtain ⟨p, hp, hpn⟩ := hmiss
        rcases List.mem_cons.mp hp with heq | hm
        · rw [heq] at hpn
          rw [hpn] at hspk
          cases hspk
        · exact ⟨p, hm, hpn⟩
      obtain ⟨eid2, herr⟩ := ih
        (fun p hp => hlk p (List.mem_cons_of_mem _ hp)) hrest
      refine ⟨eid2, ?_⟩
      simp only [buildKaldiExamples, hr, herr]

/-- Claim C8: a dataset subdirectory whose `wav.scp` holds an identifier
absent from `utt2spk` (text and gender tables being sound) fails with the
malformed-dataset error, is skipped entirely — it contributes nothing to
the scan result — and the scan continues: a well-formed sibling
subdirectory is still loaded with all its examples. -/
theorem malformed_dataset_skipped (name : String) (f : KaldiFiles)
    (rest : List (String × KaldiFiles))
    (hlk : ∀ p ∈ f.scp, entryLookupsOkB f p.1 = true)
    (hmiss : ∃ p ∈ f.scp, alookup f.utt2spk p.1 = none) :
    (∃ eid, getExamplesFromDataset f = .error (.malformedDataset eid))
    ∧ getDatasetDictFromKaldi ((name, f) :: rest) = getDatasetDictFromKaldi rest
    ∧ ∀ (m : String) (g : KaldiFiles) (exs : List (String × Record))
        (dict : List (String × List (String × Record))),
        getExamplesFromDataset g = .ok exs →
        getDatasetDictFromKaldi rest = .ok dict →
        getDatasetDictFromKaldi ((name, f) :: (m, g) :: rest)
          = .ok ((m, exs) :: dict) := by
  obtain ⟨eid, herr⟩ := buildKaldiExamples_malformed f f.scp hlk hmiss
  have herr2 : getExamplesFromDataset f = .error (.malformedDataset eid) := herr
  refine ⟨⟨eid, herr2⟩, ?_, ?_⟩
  · simp only [getDatasetDictFromKaldi, herr2]
  · intro m g exs dict hg hdict
    simp only [getDatasetDictFromKaldi, herr2, hg, hdict]

/-- A dataset subdirectory whose `wav.scp` references `u3` while
`utt2spk` lacks it. -/
def fBad : KaldiFiles := ⟨[("u3", ["p3"])], [("u1", "s1")], [("u3", "t3")], none⟩

/-- A well-formed sibling subdirectory. -/
def gGood : KaldiFiles := ⟨[("u1", ["p1"])], [("u1", "s1")], [("u1", "t1")], none⟩

/-- Witness for C8: the malformed directory contributes nothing, and the
well-formed sibling is loaded in full. -/
theorem malformed_dataset_skipped_witness :
    getDatasetDictFromKaldi [("bad", fBad)] = getDatasetDictFromKaldi []
    ∧ getDatasetDictFromKaldi [("bad", fBad), ("good", gGood)]
        = .ok [("good", [("u1",
            [(AUDIO_PATH, Val.vmap [(OBSERVATION, Val.str "p1")]),
             (SPEAKER_ID, Val.str "s1"),
             (KALDI_TRANSCRIPTION, Val.str "t1")])])] :=
  ⟨(malformed_dataset_skipped "bad" fBad [] (by decide) (by decide)).2.1,
   (malformed_dataset_skipped "bad" fBad [] (by decide) (by decide)).2.2
     "good" gGood _ [] rfl rfl⟩

/-! ### Claim C9: missing length data surfaces as not-implemented -/

abbrev KaldiDict := List (String × List (String × Record))

/-- The single error class for length requests
(`NotImplementedError`). -/
inductive LenError : Type where
  | notImplemented : LenError
  deriving DecidableEq

theorem lenError_eq (e : LenError) : e = .notImplemented := by cases e; rfl

/-- The sample count of a record (`v[NUM_SAMPLES]`); the adapter stores
numeric counts, so only `Val.num` is a hit and absence is the caught
`KeyError`. -/
def numSamples (r : Record) : Option Nat :=
  match rget r NUM_SAMPLES with
  | some (Val.num k) => some k
  | _ => none

/-- The per-dataset comprehension of `KaldiDatabase.get_lengths`:
`length_transform_fn(v[NUM_SAMPLES])` per record, aborting at the first
record without a sample count; a failing transform raises the
not-implemented error itself (the default `length_transform_fn`), so all
failures carry the same class. -/
def datasetLengths (tf : Nat → Except LenError Nat) :
    List (String × Record) → Except LenError (List (String × Nat))
  | [] => .ok []
  | (k, r) :: rest =>
    match numSamples r with
    | none => .error .notImplemented
    | some v =>
      match tf v with
      | .error e => .error e
      | .ok n =>
        match datasetLengths tf rest with
        | .error e => .error e
        | .ok ns => .ok ((k, n) :: ns)

/-- `lengths.update(dataset_lengths)`. -/
def updateAll (acc ns : List (String × Nat)) : List (String × Nat) :=
  ns.foldl (fun a p => aset a p.1 p.2) acc

/-- `KaldiDatabase.get_lengths`: per requested dataset name, the lengths
comprehension; a missing dataset or a record without a sample count is
the caught `KeyError`, re-raised as the not-implemented error. -/
def kaldiGetLengths (dbd : KaldiDict) (tf : Nat → Except LenError Nat) :
    List String → Except LenError (List (String × Nat))
  | [] => .ok []
  | ds :: rest =>
    match alookup dbd ds with
    | none => .error .notImplemented
    | some exs =>
      match datasetLengths tf exs with
      | .error _ => .error .notImplemented
      | .ok ns =>
        match kaldiGetLengths dbd tf rest with
        | .error e => .error e
        | .ok acc => .ok (updateAll acc ns)

/-- The per-dataset half of `_get_lengths_from_kaldi`: the caller-supplied
seconds-to-samples transform applied to every `utt2dur` entry. -/
def durLengths (tf : Nat → Except LenError Nat) :
    List (String × Nat) → Except LenError (List (String × Nat))
  | [] => .ok []
  | (k, v) :: rest =>
    match tf v with
    | .error e => .error e
    | .ok n =>
      match durLengths tf rest with
      | .error e => .error e
      | .ok ns => .ok ((k, n) :: ns)

/-- `KaldiDatabase._get_lengths_from_kaldi` over the dataset names:
a dataset without an `utt2dur` file raises the not-implemented error, and
the transform's own not-implemented failures propagate. -/
def getLengthsFromKaldi (utt2dur : String → Option (List (String × Nat)))
    (tf : Nat → Except LenError Nat) :
    List String → Except LenError (List (String × Nat))
  | [] => .ok []
  | ds :: rest =>
    match utt2dur ds with
    | none => .error .notImplemented
    | some durs =>
      match durLengths tf durs with
      | .error e => .error e
      | .ok ns =>
        match getLengthsFromKaldi utt2dur tf rest with
        | .error e => .error e
        | .ok acc => .ok (updateAll acc ns)

/-- The default `KaldiDatabase.length_transform_fn`: it raises the
not-implemented error because the sample rate is unknown. -/
def defaultLengthTransformFn : Nat → Except LenError Nat :=
  fun _ => .error .notImplemented

/-- `num_samples_dict[key]` applied to every record of one dataset
(the uncaught `KeyError` when a key has no duration entry). -/
def setNumSamplesDataset (ns : List (String × Nat)) :
    List (String × Record) → Except KaldiError (List (String × Record))
  | [] => .ok []
  | (k, r) :: rest =>
    match alookup ns k with
    | none => .error .lookupError
    | some v =>
      match setNumSamplesDataset ns rest with
      | .error e => .error e
      | .ok rs => .ok ((k, rset r NUM_SAMPLES (Val.num v)) :: rs)

def setNumSamplesAll (ns : List (String × Nat)) :
    KaldiDict → Except KaldiError KaldiDict
  | [] => .ok []
  | (name, exs) :: rest =>
    match setNumSamplesDataset ns exs with
    | .error e => .error e
    | .ok exs2 =>
      match setNumSamplesAll ns rest with
      | .error e => .error e
      | .ok dict => .ok ((name, exs2) :: dict)

/-- `KaldiDatabase._add_num_samples_to_database_dict`: when the duration
lengths cannot be computed, the failure is logged and the database dict
is returned unchanged — the construction of the database never fails for
missing length data. -/
def addNumSamplesToDatabaseDict (dbd : KaldiDict)
    (utt2dur : String → Option (List (String × Nat)))
    (tf : Nat → Except LenError Nat) : Except KaldiError KaldiDict :=
  match getLengthsFromKaldi utt2dur tf (dbd.map Prod.fst) with
  | .error _ => .ok dbd
  | .ok ns => setNumSamplesAll ns dbd

theorem getLengthsFromKaldi_ok_inv
    (utt2dur : String → Option (List (String × Nat)))
    (tf : Nat → Except LenError Nat) :
    ∀ (names : List String) (ns : List (String × Nat)),
    getLengthsFromKaldi utt2dur tf names = .ok ns →
    ∀ ds ∈ names, ∃ durs, utt2dur ds = some durs
      ∧ ∃ ns2, durLengths tf durs = .ok ns2 := by
  intro names
  induction names with
  | nil => intro ns _ ds hds; cases hds
  | cons d rest ih =>
    intro ns h ds hds
    cases hu : utt2dur d with
    | none =>
      simp only [getLengthsFromKaldi, hu] at h
      cases h
    | some durs =>
      cases hdl : durLengths tf durs with
      | error e =>
        simp only [getLengthsFromKaldi, hu, hdl] at h
        cases h
      | ok ns2 =>
        cases hrec : getLengthsFromKaldi utt2dur tf rest with
        | error e =>
          simp only [getLengthsFromKaldi, hu, hdl, hrec] at h
          cases h
        | ok acc =>
          rcases List.mem_cons.mp hds with heq | hm
          · subst heq
            exact ⟨durs, hu, ns2, hdl⟩
          · exact ih acc hrec ds hm

theorem durLengths_ok_inv (tf : Nat → Except LenError Nat) :
    ∀ (durs : List (String × Nat)) (ns : List (String × Nat)),
    durLengths tf durs = .ok ns → ∀ q ∈ durs, ∃ n, tf q.2 = .ok n := by
  intro durs
  induction durs with
  | nil => intro ns _ q hq; cases hq
  | cons p rest ih =>
    intro ns h q hq
    obtain ⟨k, v⟩ := p
    cases htf : tf v with
    | error e =>
      simp only [durLengths, htf] at h
      cases h
    | ok n =>
      cases hrec : durLengths tf rest with
      | error e =>
        simp only [durLengths, htf, hrec] at h
        cases h
      | ok ns2 =>
        rcases List.mem_cons.mp hq with heq | hm
        · subst heq
          exact ⟨n, htf⟩
        · exact ih ns2 hrec q hm

theorem datasetLengths_ok_inv (tf : Nat → Except LenError Nat) :
    ∀ (exs : List (String × Record)) (ns : List (String × Nat)),
    datasetLengths tf exs = .ok ns → ∀ p ∈ exs, (numSamples p.2).isSome := by
  intro exs
  induction exs with
  | nil => intro ns _ p hp; cases hp
  | cons q rest ih =>
    intro ns h p hp
    obtain ⟨k, r⟩ := q
    cases hn : numSamples r with
    | none =>
      simp only [datasetLengths, hn] at h
      cases h
    | some v =>
      cases htf : tf v with
      | error e =>
        simp only [datasetLengths, hn, htf] at h
        cases h
      | ok n =>
        cases hrec : datasetLengths tf rest with
        | error e =>
          simp only [datasetLengths, hn, htf, hrec] at h
          cases h
        | ok ns2 =>
          rcases List.mem_cons.mp hp with heq | hm
          · subst heq
            rw [hn]
            rfl
          · exact ih ns2 hrec p hm

theorem kaldiGetLengths_ok_inv (dbd : KaldiDict) (tf : Nat → Except LenError Nat) :
    ∀ (dsnames : List String) (ns : List (String × Nat)),
    kaldiGetLengths dbd tf dsnames = .ok ns →
    ∀ ds ∈ dsnames, ∃ exs, alookup dbd ds = some exs
      ∧ ∃ ns2, datasetLengths tf exs = .ok ns2 := by
  intro dsnames
  induction dsnames with
  | nil => intro ns _ ds hds; cases hds
  | cons d rest ih =>
    intro ns h ds hds
    cases hd : alookup dbd d with
    | none =>
      simp only [kaldiGetLengths, hd] at h
      cases h
    | some exs =>
      cases hdl : datasetLengths tf exs with
      | error e =>
        simp only [kaldiGetLengths, hd, hdl] at h
        cases h
      | ok ns2 =>
        cases hrec : kaldiGetLengths dbd tf rest with
        | error e =>
          simp only [kaldiGetLengths, hd, hdl, hrec] at h
          cases h
        | ok acc =>
          rcases List.mem_cons.mp hds with heq | hm
          · subst heq
            exact ⟨exs, hd, ns2, hdl⟩
          · exact ih acc hrec ds hm

/-- Claim C9: whenever length information is requested but the data to
compute it is missing, the request fails with the not-implemented error,
surfaced directly: a dataset without an `utt2dur` file fails the duration
computation; the default (absent) seconds-to-samples transform fails it
on any non-empty duration table; yet a failing duration computation
leaves the database dict construction unchanged and successful — only
explicit length requests fail, as they do when a record has no sample
count. -/
theorem missing_length_data_not_implemented :
    (∀ (utt2dur : String → Option (List (String × Nat)))
        (tf : Nat → Except LenError Nat) (names : List String) (ds : String),
        ds ∈ names → utt2dur ds = none →
        getLengthsFromKaldi utt2dur tf names = .error .notImplemented)
    ∧ (∀ (utt2dur : String → Option (List (String × Nat)))
        (names : List String) (ds : String) (durs : List (String × Nat)),
        ds ∈ names → utt2dur ds = some durs → durs ≠ [] →
        getLengthsFromKaldi utt2dur defaultLengthTransformFn names
          = .error .notImplemented)
    ∧ (∀ (dbd : KaldiDict) (utt2dur : String → Option (List (String × Nat)))
        (tf : Nat → Except LenError Nat) (e : LenError),
        getLengthsFromKaldi utt2dur tf (dbd.map Prod.fst) = .error e →
        addNumSamplesToDatabaseDict dbd utt2dur tf = .ok dbd)
    ∧ (∀ (dbd : KaldiDict) (tf : Nat → Except LenError Nat)
        (dsnames : List String) (ds : String) (exs : List (String × Record))
        (k : String) (r : Record),
        ds ∈ dsnames → alookup dbd ds = some exs → (k, r) ∈ exs →
        numSamples r = none →
        kaldiGetLengths dbd tf dsnames = .error .notImplemented) := by
  refine ⟨?_, ?_, ?_, ?_⟩
  · intro utt2dur tf names ds hds hu
    cases hres : getLengthsFromKaldi utt2dur tf names with
    | ok ns =>
      obtain ⟨durs, hu2, _⟩ := getLengthsFromKaldi_ok_inv utt2dur tf names ns
        hres ds hds
      rw [hu] at hu2
      cases hu2
    | error e => rw [lenError_eq e]
  · intro utt2dur names ds durs hds hu hne
    cases hres : getLengthsFromKaldi utt2dur defaultLengthTransformFn names with
    | ok ns =>
      obtain ⟨durs2, hu2, ns2, hdl⟩ :=
        getLengthsFromKaldi_ok_inv utt2dur defaultLengthTransformFn names ns
          hres ds hds
      rw [hu] at hu2
      injection hu2 with hu2
      subst hu2
      cases durs with
      | nil => exact absurd rfl hne
      | cons q qrest =>
        obtain ⟨n, htf⟩ := durLengths_ok_inv defaultLengthTransformFn _ ns2 hdl
          q (List.mem_cons_self q qrest)
        cases htf
    | error e => rw [lenError_eq e]
  · intro dbd utt2dur tf e h
    simp only [addNumSamplesToDatabaseDict, h]
  · intro dbd tf dsnames ds exs k r hds hd hkr hnone
    cases hres : kaldiGetLengths dbd tf dsnames with
    | ok ns =>
      obtain ⟨exs2, hd2, ns2, hdl⟩ := kaldiGetLengths_ok_inv dbd tf dsnames ns
        hres ds hds
      rw [hd] at hd2
      injection hd2 with hd2
      subst hd2
      have := datasetLengths_ok_inv tf exs ns2 hdl (k, r) hkr
      rw [hnone] at this
      cases this
    | error e => rw [lenError_eq e]

/-- Witness for C9 on concrete data: a missing `utt2dur`, the default
raising transform, the unchanged database dict, and a record without a
sample count. -/
theorem missing_length_data_not_implemented_witness :
    getLengthsFromKaldi (fun _ => none) (fun n => .ok n) ["train"]
        = .error .notImplemented
    ∧ getLengthsFromKaldi (fun _ => some [("u1", 5)]) defaultLengthTransformFn
        ["train"] = .error .notImplemented
    ∧ addNumSamplesToDatabaseDict [("train", [("u1", [])])] (fun _ => none)
        (fun n => .ok n) = .ok [("train", [("u1", [])])]
    ∧ kaldiGetLengths [("train", [("u1", [])])] (fun n => .ok n) ["train"]
        = .error .notImplemented :=
  ⟨missing_length_data_not_implemented.1 (fun _ => none) (fun n => .ok n)
      ["train"] "train" (by decide) rfl,
   missing_length_data_not_implemented.2.1 (fun _ => some [("u1", 5)])
      ["train"] "train" [("u1", 5)] (by decide) rfl (by decide),
   missing_length_data_not_implemented.2.2.1 [("train", [("u1", [])])]
      (fun _ => none) (fun n => .ok n) .notImplemented rfl,
   missing_length_data_not_implemented.2.2.2 [("train", [("u1", [])])]
      (fun n => .ok n) ["train"] "train" [("u1", [])] "u1" []
      (by decide) rfl (List.mem_cons_self _ _) rfl⟩
